import Mathlib

set_option maxHeartbeats 1000000

namespace MamaStoria

/-!
Verification of the BE-MamaStoriaComics rendering pipeline (`core.py`,
`video_generator.py`) against its natural-language specification.

JSON-shaped Python data (the script produced by the text model, job records,
panel dicts) is embedded as the inductive `JVal`; Python semantics that the
code relies on (truthiness, `int(...)` coercion, `str(...)`, `or` defaulting,
`.strip()`) are modelled by the `py*` helpers below.
-/

/-- Model of a Python/JSON value as manipulated by `core.py`. -/
inductive JVal where
  | null : JVal
  | bool : Bool → JVal
  | num : Int → JVal
  | str : String → JVal
  | arr : List JVal → JVal
  | obj : List (String × JVal) → JVal

/-- Python truthiness (`bool(x)`): `None`, `False`, `0`, `""`, `[]`, `{}` are falsy. -/
def pyTruthy : JVal → Bool
  | .null => false
  | .bool b => b
  | .num n => n != 0
  | .str s => s ≠ ""
  | .arr xs => !xs.isEmpty
  | .obj fs => !fs.isEmpty

/-- Python `x or d` for an optional lookup result: the value if present and truthy, else `d`. -/
def pyOr (v : Option JVal) (d : JVal) : JVal :=
  match v with
  | some x => if pyTruthy x then x else d
  | none => d

/-- Python whitespace, as recognized by `str.strip()`. -/
def isPySpace (c : Char) : Bool :=
  c = ' ' ∨ c = Char.ofNat 9 ∨ c = Char.ofNat 10 ∨ c = Char.ofNat 13 ∨
    c = Char.ofNat 11 ∨ c = Char.ofNat 12

/-- Python `s.strip()`: drop leading and trailing whitespace. -/
def pyStrip (s : String) : String :=
  String.mk (((s.toList.dropWhile isPySpace).reverse.dropWhile isPySpace).reverse)

/-- Parse of a decimal digit run (`int(...)` on strings, after the sign). -/
def digitsToNat (cs : List Char) : Option Nat :=
  if cs ≠ [] ∧ cs.all Char.isDigit then
    some (cs.foldl (fun a c => a * 10 + (c.toNat - 48)) 0)
  else
    none

/-- Python `int(s)` on a string: strip whitespace, optional sign, base-10 digits. -/
def pyStrToInt (s : String) : Option Int :=
  match (pyStrip s).toList with
  | '-' :: rest => (digitsToNat rest).map (fun n => -(n : Int))
  | '+' :: rest => (digitsToNat rest).map (fun n => (n : Int))
  | cs => (digitsToNat cs).map (fun n => (n : Int))

/-- Python `int(x)`: identity on ints, `0`/`1` on bools, parse on strings,
`TypeError` (`none`) otherwise. -/
def pyToInt : JVal → Option Int
  | .num n => some n
  | .bool b => some (if b then 1 else 0)
  | .str s => pyStrToInt s
  | _ => none

/-- Dictionary lookup `d.get(k)` (dict keys are unique; first binding wins). -/
def objGet (fs : List (String × JVal)) (k : String) : Option JVal :=
  List.lookup k fs

/-- Dictionary assignment `d[k] = v`: replace the binding if present, else append. -/
def objSet (fs : List (String × JVal)) (k : String) (v : JVal) : List (String × JVal) :=
  if (objGet fs k).isSome then
    fs.map (fun kv => if kv.1 = k then (k, v) else kv)
  else
    fs ++ [(k, v)]

/-- The single-quote character, used by Python `repr` of strings. -/
def sq : Char := Char.ofNat 39

mutual

/-- Python `repr(x)` for JSON-shaped values (as used inside `str` of containers). -/
def pyRepr : JVal → String
  | .null => "None"
  | .bool b => if b then "True" else "False"
  | .num n => toString n
  | .str s => String.singleton sq ++ s ++ String.singleton sq
  | .arr xs => "[" ++ pyReprItems xs ++ "]"
  | .obj fs => "\x7b" ++ pyReprFields fs ++ "\x7d"

/-- Comma-separated `repr` of list items. -/
def pyReprItems : List JVal → String
  | [] => ""
  | [x] => pyRepr x
  | x :: xs => pyRepr x ++ ", " ++ pyReprItems xs

/-- Comma-separated `repr` of dict entries. -/
def pyReprFields : List (String × JVal) → String
  | [] => ""
  | [kv] => String.singleton sq ++ kv.1 ++ String.singleton sq ++ ": " ++ pyRepr kv.2
  | kv :: rest =>
      String.singleton sq ++ kv.1 ++ String.singleton sq ++ ": " ++ pyRepr kv.2 ++ ", "
        ++ pyReprFields rest

end

/-- Python `str(x)`: the string itself for strings, `repr`-style text otherwise. -/
def pyStr : JVal → String
  | .str s => s
  | v => pyRepr v

/-- Iterating a Python value in a list comprehension. Lists yield their items and
dicts their keys; in every use below validation guarantees a list, so the
non-iterable branches (returning `[]`) are unreachable. -/
def pyIter : JVal → List JVal
  | .arr xs => xs
  | .obj fs => fs.map (fun kv => .str kv.1)
  | .str s => s.toList.map (fun c => .str (String.singleton c))
  | _ => []

/-- Keep only dict elements (`[p for p in l if isinstance(p, dict)]`). -/
def onlyDicts (l : List JVal) : List JVal :=
  l.filter (fun p => match p with | .obj _ => true | _ => false)

/-!  Python `sorted(l, key=k)`: a stable insertion sort by an integer key,
matching the stable Timsort used by CPython on these small lists. -/

/-- Insert into a key-sorted list, before the first strictly larger key. -/
def insertLe (key : α → Int) (x : α) : List α → List α
  | [] => [x]
  | y :: ys => if key x ≤ key y then x :: y :: ys else y :: insertLe key x ys

/-- Stable sort by integer key (`sorted(l, key=...)`). -/
def sortByKey (key : α → Int) : List α → List α
  | [] => []
  | x :: xs => insertLe key x (sortByKey key xs)

theorem insertLe_perm (key : α → Int) (x : α) (l : List α) :
    List.Perm (insertLe key x l) (x :: l) := by
  induction l with
  | nil => simp [insertLe]
  | cons y ys ih =>
      simp only [insertLe]
      split
      · exact List.Perm.refl _
      · exact List.Perm.trans (List.Perm.cons y ih) (List.Perm.swap x y ys)

theorem sortByKey_perm (key : α → Int) (l : List α) :
    List.Perm (sortByKey key l) l := by
  induction l with
  | nil => simp [sortByKey]
  | cons x xs ih =>
      exact List.Perm.trans (insertLe_perm key x (sortByKey key xs)) (List.Perm.cons x ih)

theorem insertLe_pairwise (key : α → Int) (x : α) (l : List α)
    (h : List.Pairwise (fun a b => key a ≤ key b) l) :
    List.Pairwise (fun a b => key a ≤ key b) (insertLe key x l) := by
  induction l with
  | nil => simp [insertLe]
  | cons y ys ih =>
      rw [List.pairwise_cons] at h
      obtain ⟨hy, hys⟩ := h
      simp only [insertLe]
      split
      · rename_i hxy
        rw [List.pairwise_cons]
        refine ⟨?_, List.pairwise_cons.mpr ⟨hy, hys⟩⟩
        intro b hb
        rcases List.mem_cons.mp hb with rfl | hb
        · exact hxy
        · exact le_trans hxy (hy b hb)
      · rename_i hxy
        rw [List.pairwise_cons]
        refine ⟨?_, ih hys⟩
        intro b hb
        have hmem : b ∈ x :: ys := (insertLe_perm key x ys).mem_iff.mp hb
        rcases List.mem_cons.mp hmem with rfl | hb
        · omega
        · exact hy b hb

theorem sortByKey_pairwise (key : α → Int) (l : List α) :
    List.Pairwise (fun a b => key a ≤ key b) (sortByKey key l) := by
  induction l with
  | nil => simp [sortByKey]
  | cons x xs ih => exact insertLe_pairwise key x _ ih

/-- Effectful `map` over a list in the `Except` monad (Python `for` loop that
can `raise`): stops at the first failure. -/
def mapE (f : α → Except ε β) : List α → Except ε (List β)
  | [] => .ok []
  | x :: xs =>
      match f x with
      | .error e => .error e
      | .ok y =>
          match mapE f xs with
          | .error e => .error e
          | .ok ys => .ok (y :: ys)

theorem mapE_ok_iff (f : α → Except ε β) (l : List α) (l2 : List β) :
    mapE f l = .ok l2 ↔ List.Forall₂ (fun a b => f a = .ok b) l l2 := by
  induction l generalizing l2 with
  | nil =>
      constructor
      · intro h
        cases l2 with
        | nil => exact List.Forall₂.nil
        | cons b bs => simp [mapE] at h
      · intro h
        cases h
        rfl
  | cons x xs ih =>
      constructor
      · intro h
        simp only [mapE] at h
        cases hfx : f x with
        | error e => rw [hfx] at h; exact absurd h (by simp)
        | ok y =>
            rw [hfx] at h
            cases hrest : mapE f xs with
            | error e => rw [hrest] at h; exact absurd h (by simp)
            | ok ys =>
                rw [hrest] at h
                cases h
                exact List.Forall₂.cons hfx ((ih ys).mp hrest)
      · intro h
        cases h with
        | cons hfx hrest =>
            simp only [mapE]
            rw [hfx, (ih _).mpr hrest]

theorem forall2_exists_left {R : α → β → Prop} {l : List α} {l2 : List β}
    (h : List.Forall₂ R l l2) : ∀ a ∈ l, ∃ b, R a b := by
  induction h with
  | nil => intro a ha; simp at ha
  | cons hr _ ih =>
      intro a ha
      rcases List.mem_cons.mp ha with rfl | ha
      · exact ⟨_, hr⟩
      · exact ih a ha

theorem mapE_isOk_iff (f : α → Except ε β) (l : List α) :
    (∃ l2, mapE f l = .ok l2) ↔ ∀ a ∈ l, ∃ b, f a = .ok b := by
  constructor
  · rintro ⟨l2, h⟩ a ha
    exact forall2_exists_left ((mapE_ok_iff f l l2).mp h) a ha
  · intro h
    induction l with
    | nil => exact ⟨[], rfl⟩
    | cons x xs ih =>
        obtain ⟨y, hy⟩ := h x (by simp)
        obtain ⟨ys, hys⟩ := ih (fun a ha => h a (by simp [ha]))
        exact ⟨y :: ys, by simp only [mapE]; rw [hy, hys]⟩

/-!
## Script shape validation (`core.py:560-614`)

`_normalize_dialogues_in_panel` and `validate_script_shape`, translated from
the source.  The Python function raises `ValueError` and mutates the script
in place (normalizing each panel's `dialogues`); modelled here as an
`Except String JVal` returning the normalized script on success.
-/

/-- Result of `_normalize_dialogues_in_panel` on the panel's current
`dialogues` value (`core.py:560-569`). -/
def normDlgValue : Option JVal → JVal
  | some (.arr xs) =>
      .arr ((((xs.map (fun x => pyStrip (pyStr x))).filter (fun s => s ≠ "")).take 2).map .str)
  | some .null => .arr []
  | some v =>
      let s := pyStrip (pyStr v)
      .arr (if s = "" then [] else [.str s])
  | none => .arr []

/-- The five mandatory panel keys, in the order the source checks them. -/
def panelKeys : List String :=
  ["panel_no", "panel_title", "narration", "dialogues", "panel_context"]

/-- Per-panel check of `validate_script_shape`: the panel must be a dict with
all five keys; on success its `dialogues` entry is normalized. -/
def checkPanel (p : JVal) : Except String JVal :=
  match p with
  | .obj fs =>
      match panelKeys.find? (fun k => (objGet fs k).isNone) with
      | some k => .error ("panel missing key: " ++ k)
      | none => .ok (.obj (objSet fs "dialogues" (normDlgValue (objGet fs "dialogues"))))
  | _ => .error "invalid panel item"

/-- Coercion `int(part.get("part_no") or 0)` with the `except` fallback to 0. -/
def partNoOf (fs : List (String × JVal)) : Int :=
  (pyToInt (pyOr (objGet fs "part_no") (.num 0))).getD 0

/-- The `nums` list collected from the panels: `int(p.get("panel_no"))` for the
dict panels, `-999` where the coercion raises. -/
def panelNums (panels : List JVal) : List Int :=
  panels.foldr
    (fun p acc =>
      match p with
      | .obj fs => (((objGet fs "panel_no").bind pyToInt).getD (-999)) :: acc
      | _ => acc)
    []

/-- The expected sorted panel numbering `list(range(1, 10))`. -/
def oneToNine : List Int := [1, 2, 3, 4, 5, 6, 7, 8, 9]

/-- Per-part check of `validate_script_shape` (`core.py:580-614`). -/
def checkPart (part : JVal) : Except String JVal :=
  match part with
  | .obj fs =>
      let pno := partNoOf fs
      if pno = 1 ∨ pno = 2 then
        match objGet fs "panels" with
        | some (.arr panels) =>
            if panels.length = 9 then
              let nums := panelNums panels
              if sortByKey id nums = oneToNine then
                if nums.dedup.length = 9 then
                  (mapE checkPanel panels).map
                    (fun panels2 => .obj (objSet fs "panels" (.arr panels2)))
                else .error "panel_no has duplicates"
              else .error "panels must be numbered 1..9"
            else .error "part must have exactly 9 panels"
        | _ => .error "part must have exactly 9 panels"
      else .error "Each part must have part_no 1 or 2."
  | _ => .error "Each part must be an object."

/-- Embedding of `validate_script_shape` (`core.py:572-614`), returning the
normalized script. -/
def validate_script_shape (script : JVal) : Except String JVal :=
  match script with
  | .obj fs =>
      match objGet fs "parts" with
      | some (.arr parts) =>
          if parts.length = 2 then
            (mapE checkPart parts).map
              (fun parts2 => .obj (objSet fs "parts" (.arr parts2)))
          else .error "Script JSON must contain exactly 2 parts."
      | _ => .error "Script JSON must contain exactly 2 parts."
  | _ => .error "Script must be a JSON object."

/-! ## Dictionary update lemmas -/

theorem lookup_cons {β : Type} (k a : String) (b : β) (rest : List (String × β)) :
    List.lookup k ((a, b) :: rest) = if k = a then some b else List.lookup k rest := by
  by_cases h : k = a
  · simp [List.lookup, h]
  · simp [List.lookup, h, beq_eq_false_iff_ne.mpr h]

theorem lookup_map_replace {β : Type} (fs : List (String × β)) (k : String) (v : β) :
    List.lookup k (fs.map (fun kv => if kv.1 = k then (k, v) else kv)) =
      if (List.lookup k fs).isSome then some v else none := by
  induction fs with
  | nil => simp
  | cons kv rest ih =>
      rcases kv with ⟨a, b⟩
      dsimp only [List.map_cons]
      by_cases hk : a = k
      · rw [if_pos hk, lookup_cons, if_pos rfl]
        have hr : List.lookup k ((a, b) :: rest) = some b := by
          rw [lookup_cons, if_pos hk.symm]
        rw [hr]
        simp
      · rw [if_neg hk]
        have hr : List.lookup k ((a, b) :: rest) = List.lookup k rest := by
          rw [lookup_cons, if_neg (fun h2 => hk h2.symm)]
        rw [hr, lookup_cons, if_neg (fun h2 => hk h2.symm), ih]

theorem lookup_append_single {β : Type} (fs : List (String × β)) (k : String) (v : β)
    (h : List.lookup k fs = none) : List.lookup k (fs ++ [(k, v)]) = some v := by
  induction fs with
  | nil => rw [List.nil_append, lookup_cons, if_pos rfl]
  | cons kv rest ih =>
      rcases kv with ⟨a, b⟩
      rw [lookup_cons] at h
      by_cases hk : k = a
      · rw [if_pos hk] at h; simp at h
      · rw [if_neg hk] at h
        rw [List.cons_append, lookup_cons, if_neg hk]
        exact ih h

theorem objGet_objSet_self (fs : List (String × JVal)) (k : String) (v : JVal) :
    objGet (objSet fs k v) k = some v := by
  unfold objSet
  split
  · rename_i hpres
    simp only [objGet] at hpres ⊢
    rw [lookup_map_replace]
    simp [hpres]
  · rename_i habs
    simp only [objGet] at habs ⊢
    refine lookup_append_single fs k v ?_
    cases h : List.lookup k fs with
    | none => rfl
    | some w => rw [h] at habs; simp at habs

theorem objGet_objSet_ne (fs : List (String × JVal)) (k k2 : String) (v : JVal)
    (h : k2 ≠ k) : objGet (objSet fs k v) k2 = objGet fs k2 := by
  unfold objSet
  split
  · rename_i hpres
    clear hpres
    simp only [objGet]
    induction fs with
    | nil => simp
    | cons kv rest ih =>
        rcases kv with ⟨a, b⟩
        dsimp only [List.map_cons]
        by_cases hk : a = k
        · rw [if_pos hk]
          subst hk
          rw [lookup_cons, lookup_cons, if_neg h, if_neg h]
          exact ih
        · rw [if_neg hk, lookup_cons, lookup_cons]
          by_cases hka : k2 = a
          · rw [if_pos hka, if_pos hka]
          · rw [if_neg hka, if_neg hka]
            exact ih
  · rename_i habs
    clear habs
    simp only [objGet]
    induction fs with
    | nil =>
        rw [List.nil_append, lookup_cons, if_neg h]
    | cons kv rest ih =>
        rcases kv with ⟨a, b⟩
        rw [List.cons_append, lookup_cons, lookup_cons]
        by_cases hka : k2 = a
        · rw [if_pos hka, if_pos hka]
        · rw [if_neg hka, if_neg hka]
          exact ih

/-! ## Specification-side shape predicate

Written from the (amended) claim's words: an object whose `parts` is a list of
exactly 2 parts with coerced `part_no` in \x7b1,2\x7d, each part with exactly 9
panels whose coerced `panel_no` values are a permutation of 1..9, and every
panel an object carrying all five mandatory keys. -/

/-- Spec wording: the panel is an object that has all five mandatory keys. -/
def specPanel (p : JVal) : Prop :=
  ∃ fs, p = .obj fs ∧ ∀ k ∈ panelKeys, (objGet fs k).isSome

/-- Spec wording: a part with `part_no` (coerced) 1 or 2 and exactly 9 panels
whose `panel_no` values form a permutation of 1..9. -/
def specPart (part : JVal) : Prop :=
  ∃ fs, part = .obj fs ∧ (partNoOf fs = 1 ∨ partNoOf fs = 2) ∧
    ∃ panels, objGet fs "panels" = some (.arr panels) ∧ panels.length = 9 ∧
      List.Perm (panelNums panels) oneToNine ∧ ∀ p ∈ panels, specPanel p

/-- Spec wording: an object whose `parts` holds exactly 2 valid parts. -/
def specScriptShape (s : JVal) : Prop :=
  ∃ fs, s = .obj fs ∧ ∃ parts, objGet fs "parts" = some (.arr parts) ∧
    parts.length = 2 ∧ ∀ part ∈ parts, specPart part

/-- The normalization guarantee: every panel's `dialogues` in the validated
script is a list of at most 2 non-empty strings. -/
def dialoguesNormalized (q : JVal) : Prop :=
  ∀ fs, q = .obj fs →
    ∀ parts, objGet fs "parts" = some (.arr parts) →
      ∀ part ∈ parts, ∀ pfs, part = .obj pfs →
        ∀ panels, objGet pfs "panels" = some (.arr panels) →
          ∀ p ∈ panels, ∀ pp, p = .obj pp →
            ∃ ds, objGet pp "dialogues" = some (.arr ds) ∧ ds.length ≤ 2 ∧
              ∀ d ∈ ds, ∃ t, d = .str t ∧ t ≠ ""

theorem exceptIsOk_iff (e : Except ε α) : e.isOk = true ↔ ∃ q, e = .ok q := by
  cases e <;> simp [Except.isOk, Except.toBool]

theorem sortByKey_id_eq_iff_perm (nums : List Int) :
    sortByKey id nums = oneToNine ↔ List.Perm nums oneToNine := by
  constructor
  · intro h
    have hp := sortByKey_perm id nums
    rw [h] at hp
    exact hp.symm
  · intro h
    have hp : List.Perm (sortByKey id nums) oneToNine :=
      (sortByKey_perm id nums).trans h
    have hs1 : List.Sorted (· ≤ ·) (sortByKey id nums) := sortByKey_pairwise id nums
    have hs2 : List.Sorted (· ≤ ·) oneToNine := by decide
    exact List.eq_of_perm_of_sorted hp hs1 hs2

theorem normDlgValue_shape (v : Option JVal) :
    ∃ ds, normDlgValue v = .arr ds ∧ ds.length ≤ 2 ∧
      ∀ d ∈ ds, ∃ t, d = .str t ∧ t ≠ "" := by
  match v with
  | none => exact ⟨[], rfl, by simp, by simp⟩
  | some (.arr xs) =>
      refine ⟨_, rfl, ?_, ?_⟩
      · calc ((((xs.map (fun x => pyStrip (pyStr x))).filter
              (fun s => s ≠ "")).take 2).map JVal.str).length
            = (((xs.map (fun x => pyStrip (pyStr x))).filter (fun s => s ≠ "")).take 2).length := by
              rw [List.length_map]
          _ ≤ 2 := List.length_take_le 2 _
      · intro d hd
        rw [List.mem_map] at hd
        obtain ⟨t, ht, rfl⟩ := hd
        refine ⟨t, rfl, ?_⟩
        have ht2 := List.mem_of_mem_take ht
        have := List.of_mem_filter ht2
        simpa using this
  | some .null => exact ⟨[], rfl, by simp, by simp⟩
  | some (.bool b) =>
      by_cases h : pyStrip (pyStr (.bool b)) = "" <;> simp [normDlgValue, h]
  | some (.num n) =>
      by_cases h : pyStrip (pyStr (.num n)) = "" <;> simp [normDlgValue, h]
  | some (.str s) =>
      by_cases h : pyStrip (pyStr (.str s)) = "" <;> simp [normDlgValue, h]
  | some (.obj fs) =>
      by_cases h : pyStrip (pyStr (.obj fs)) = "" <;> simp [normDlgValue, h]

theorem checkPanel_ok_inv (p q : JVal) (h : checkPanel p = .ok q) :
    ∃ fs, p = .obj fs ∧ (∀ k ∈ panelKeys, (objGet fs k).isSome) ∧
      q = .obj (objSet fs "dialogues" (normDlgValue (objGet fs "dialogues"))) := by
  cases p with
  | obj fs =>
      refine ⟨fs, rfl, ?_, ?_⟩
      · intro k hk
        simp only [checkPanel] at h
        cases hfind : panelKeys.find? (fun k => (objGet fs k).isNone) with
        | some k2 => rw [hfind] at h; exact absurd h (by simp)
        | none =>
            have hn := List.find?_eq_none.mp hfind k hk
            cases hval : objGet fs k with
            | some w => simp
            | none => rw [hval] at hn; simp at hn
      · simp only [checkPanel] at h
        cases hfind : panelKeys.find? (fun k => (objGet fs k).isNone) with
        | some k2 => rw [hfind] at h; exact absurd h (by simp)
        | none =>
            rw [hfind] at h
            cases h
            rfl
  | null => simp [checkPanel] at h
  | bool b => simp [checkPanel] at h
  | num n => simp [checkPanel] at h
  | str s => simp [checkPanel] at h
  | arr xs => simp [checkPanel] at h

theorem checkPanel_ok_iff (p : JVal) :
    (∃ q, checkPanel p = .ok q) ↔ specPanel p := by
  constructor
  · rintro ⟨q, hq⟩
    obtain ⟨fs, rfl, hkeys, _⟩ := checkPanel_ok_inv p q hq
    exact ⟨fs, rfl, hkeys⟩
  · rintro ⟨fs, rfl, hkeys⟩
    simp only [checkPanel]
    have hfind : panelKeys.find? (fun k => (objGet fs k).isNone) = none := by
      rw [List.find?_eq_none]
      intro k hk
      have hs := hkeys k hk
      cases hval : objGet fs k with
      | some w => simp
      | none => rw [hval] at hs; simp at hs
    rw [hfind]
    exact ⟨_, rfl⟩

theorem forall2_exists_right {R : α → β → Prop} {l : List α} {l2 : List β}
    (h : List.Forall₂ R l l2) : ∀ b ∈ l2, ∃ a, R a b := by
  induction h with
  | nil => intro b hb; simp at hb
  | cons hr _ ih =>
      intro b hb
      rcases List.mem_cons.mp hb with rfl | hb
      · exact ⟨_, hr⟩
      · exact ih b hb

theorem checkPart_ok_inv (part q : JVal) (h : checkPart part = .ok q) :
    ∃ fs panels panels2,
      part = .obj fs ∧
      (partNoOf fs = 1 ∨ partNoOf fs = 2) ∧
      objGet fs "panels" = some (.arr panels) ∧
      panels.length = 9 ∧
      List.Perm (panelNums panels) oneToNine ∧
      List.Forall₂ (fun a b => checkPanel a = .ok b) panels panels2 ∧
      q = .obj (objSet fs "panels" (.arr panels2)) := by
  cases part with
  | null => simp [checkPart] at h
  | bool b => simp [checkPart] at h
  | num n => simp [checkPart] at h
  | str s => simp [checkPart] at h
  | arr xs => simp [checkPart] at h
  | obj fs =>
      simp only [checkPart] at h
      split at h
      · rename_i hpno
        cases hpanels : objGet fs "panels" with
        | none => rw [hpanels] at h; simp at h
        | some pv =>
            rw [hpanels] at h
            cases pv with
            | arr panels =>
                simp only at h
                split at h
                · rename_i hlen
                  split at h
                  · rename_i hsort
                    split at h
                    · rename_i hded
                      cases hmap : mapE checkPanel panels with
                      | error e => rw [hmap] at h; simp [Except.map] at h
                      | ok panels2 =>
                          rw [hmap] at h
                          simp only [Except.map] at h
                          cases h
                          exact ⟨fs, panels, panels2, rfl, hpno, hpanels, hlen,
                            (sortByKey_id_eq_iff_perm _).mp hsort,
                            (mapE_ok_iff _ _ _).mp hmap, rfl⟩
                    · simp at h
                  · simp at h
                · simp at h
            | null => simp at h
            | bool b => simp at h
            | num n => simp at h
            | str s2 => simp at h
            | obj fs2 => simp at h
      · simp at h

theorem checkPart_ok_of_spec (part : JVal) (hs : specPart part) :
    ∃ q, checkPart part = .ok q := by
  obtain ⟨fs, rfl, hpno, panels, hpanels, hlen, hperm, hpans⟩ := hs
  simp only [checkPart]
  rw [if_pos hpno, hpanels]
  simp only
  rw [if_pos hlen, if_pos ((sortByKey_id_eq_iff_perm _).mpr hperm)]
  have hnodup : (panelNums panels).Nodup := hperm.symm.nodup (by decide)
  have hded : (panelNums panels).dedup.length = 9 := by
    rw [List.dedup_eq_self.mpr hnodup, hperm.length_eq]
    rfl
  rw [if_pos hded]
  obtain ⟨panels2, hmap⟩ := (mapE_isOk_iff checkPanel panels).mpr
    (fun p hp => (checkPanel_ok_iff p).mpr (hpans p hp))
  rw [hmap]
  exact ⟨_, rfl⟩

theorem validate_ok_inv (s q : JVal) (h : validate_script_shape s = .ok q) :
    ∃ fs parts parts2,
      s = .obj fs ∧
      objGet fs "parts" = some (.arr parts) ∧
      parts.length = 2 ∧
      List.Forall₂ (fun a b => checkPart a = .ok b) parts parts2 ∧
      q = .obj (objSet fs "parts" (.arr parts2)) := by
  cases s with
  | null => simp [validate_script_shape] at h
  | bool b => simp [validate_script_shape] at h
  | num n => simp [validate_script_shape] at h
  | str s2 => simp [validate_script_shape] at h
  | arr xs => simp [validate_script_shape] at h
  | obj fs =>
      simp only [validate_script_shape] at h
      cases hparts : objGet fs "parts" with
      | none => rw [hparts] at h; simp at h
      | some pv =>
          rw [hparts] at h
          cases pv with
          | arr parts =>
              simp only at h
              split at h
              · rename_i hlen
                cases hmap : mapE checkPart parts with
                | error e => rw [hmap] at h; simp [Except.map] at h
                | ok parts2 =>
                    rw [hmap] at h
                    simp only [Except.map] at h
                    cases h
                    exact ⟨fs, parts, parts2, rfl, hparts, hlen,
                      (mapE_ok_iff _ _ _).mp hmap, rfl⟩
              · simp at h
          | null => simp at h
          | bool b => simp at h
          | num n => simp at h
          | str s2 => simp at h
          | obj fs2 => simp at h

theorem validate_ok_of_spec (s : JVal) (hs : specScriptShape s) :
    ∃ q, validate_script_shape s = .ok q := by
  obtain ⟨fs, rfl, parts, hparts, hlen, hp⟩ := hs
  simp only [validate_script_shape]
  rw [hparts]
  simp only
  rw [if_pos hlen]
  obtain ⟨parts2, hmap⟩ := (mapE_isOk_iff checkPart parts).mpr
    (fun part hpart => checkPart_ok_of_spec part (hp part hpart))
  rw [hmap]
  exact ⟨_, rfl⟩

theorem validate_isOk_iff (s : JVal) :
    (validate_script_shape s).isOk = true ↔ specScriptShape s := by
  rw [exceptIsOk_iff]
  constructor
  · rintro ⟨q, hq⟩
    obtain ⟨fs, parts, parts2, rfl, hparts, hlen, hfa, _⟩ := validate_ok_inv _ q hq
    refine ⟨fs, rfl, parts, hparts, hlen, ?_⟩
    intro part hpart
    obtain ⟨q2, hq2⟩ := forall2_exists_left hfa part hpart
    obtain ⟨pfs, panels, panels2, rfl, hpno, hpanels, hplen, hperm, hfa2, _⟩ :=
      checkPart_ok_inv _ _ hq2
    refine ⟨pfs, rfl, hpno, panels, hpanels, hplen, hperm, ?_⟩
    intro p hp
    obtain ⟨q3, hq3⟩ := forall2_exists_left hfa2 p hp
    exact (checkPanel_ok_iff p).mp ⟨q3, hq3⟩
  · exact validate_ok_of_spec s

theorem validate_ok_normalized (s q : JVal) (h : validate_script_shape s = .ok q) :
    dialoguesNormalized q := by
  obtain ⟨fs, parts, parts2, rfl, hparts, hlen, hfa, rfl⟩ := validate_ok_inv _ q h
  intro fs2 hfs2 partlist hpartlist part hpart pfs2 hpfs2 panels hpanels p hp pp hpp
  cases hfs2
  rw [objGet_objSet_self] at hpartlist
  cases hpartlist
  obtain ⟨a, ha⟩ := forall2_exists_right hfa part hpart
  obtain ⟨afs, apanels, apanels2, rfl, _, _, _, _, hfa2, heq⟩ := checkPart_ok_inv _ _ ha
  rw [heq] at hpfs2
  cases hpfs2
  rw [objGet_objSet_self] at hpanels
  cases hpanels
  obtain ⟨a2, ha2⟩ := forall2_exists_right hfa2 p hp
  obtain ⟨a2fs, _, _, heq2⟩ := checkPanel_ok_inv _ _ ha2
  rw [heq2] at hpp
  cases hpp
  obtain ⟨ds, hds, hdlen, hdok⟩ := normDlgValue_shape (objGet a2fs "dialogues")
  refine ⟨ds, ?_, hdlen, hdok⟩
  rw [objGet_objSet_self, hds]

/-! ## Concrete example scripts -/

/-- A well-formed panel with number `n`. -/
def mkPanel (n : Int) : JVal :=
  .obj [("panel_no", .num n), ("panel_title", .str "Judul Panel"),
        ("narration", .str "Narasi singkat."), ("dialogues", .arr [.str "A: halo"]),
        ("panel_context", .str "Konteks visual.")]

/-- A well-formed part with number `pno` and panels 1..9. -/
def mkPart (pno : Int) : JVal :=
  .obj [("part_no", .num pno), ("part_title", .str "Bagian"),
        ("part_summary", .str "Ringkasan bagian."),
        ("panels", .arr ((List.range 9).map (fun i => mkPanel ((i : Int) + 1))))]

/-- A two-part script whose parts carry numbers `a` and `b`. -/
def mkScript (a b : Int) : JVal :=
  .obj [("global", .obj [("comic_title", .str "Judul Komik"),
                         ("tagline", .str "Tagline singkat")]),
        ("parts", .arr [mkPart a, mkPart b])]

/-- Observer: the coerced `part_no` of each element of the script's `parts`. -/
def scriptPartNos (s : JVal) : List Int :=
  match s with
  | .obj fs =>
      match objGet fs "parts" with
      | some (.arr parts) =>
          parts.map (fun p => match p with | .obj pfs => partNoOf pfs | _ => 0)
      | _ => []
  | _ => []

/-- C1 counterexample: `validate_script_shape` accepts a script whose two parts
both carry `part_no = 1`.  The claim requires acceptance to imply that the
`part_no` values are unique in \x7b1,2\x7d, but the code never compares the two
parts' numbers, so the claimed "if and only if" fails on this input. -/
theorem C1_counterexample :
    (validate_script_shape (mkScript 1 1)).isOk = true ∧
    scriptPartNos (mkScript 1 1) = [1, 1] := by
  constructor
  · rfl
  · rfl

/-- C1 (amended): `validate_script_shape` accepts a script if and only if it is
an object whose `parts` is a list of exactly 2 parts whose `part_no` coerces to
1 or 2 (uniqueness of the two numbers is NOT enforced), each part has exactly 9
panels whose `panel_no` values are a permutation of 1..9, and every panel has
all five keys `panel_no`, `panel_title`, `narration`, `dialogues`,
`panel_context`; on acceptance each panel's `dialogues` in the returned script
is normalized to a list of at most 2 non-empty strings. -/
theorem C1_script_shape_validation (s : JVal) :
    ((validate_script_shape s).isOk = true ↔ specScriptShape s) ∧
    ∀ q, validate_script_shape s = .ok q → dialoguesNormalized q :=
  ⟨validate_isOk_iff s, fun q h => validate_ok_normalized s q h⟩

/-- Witness for C1 at the concrete script `mkScript 1 2`. -/
theorem C1_script_shape_validation_witness :
    specScriptShape (mkScript 1 2) ∧
    ∃ q, validate_script_shape (mkScript 1 2) = .ok q ∧ dialoguesNormalized q := by
  have h := C1_script_shape_validation (mkScript 1 2)
  have hok : (validate_script_shape (mkScript 1 2)).isOk = true := by rfl
  refine ⟨h.1.mp hok, ?_⟩
  obtain ⟨q, hq⟩ := (exceptIsOk_iff _).mp hok
  exact ⟨q, hq, h.2 q hq⟩

/-!
## Grid splitting (`core.py:542-554`)

`split_grid_3x3` computes, for an image of size `w × h`, nine crop boxes
`(left, top, right, bottom)` (half-open pixel rectangles, as `img.crop` uses
them) in row-major order.  The pixel data is irrelevant to the claim, so the
embedding returns the crop rectangles.
-/

/-- A crop box `(left, top, right, bottom)` as passed to `img.crop`. -/
structure Rect where
  left : Nat
  top : Nat
  right : Nat
  bottom : Nat
deriving DecidableEq

/-- Embedding of `split_grid_3x3`: the crop boxes of the nine sub-images, in
the order the source appends them (rows outer, columns inner). -/
def split_grid_3x3 (w h : Nat) : List Rect :=
  let cell_w := w / 3
  let cell_h := h / 3
  ((List.range 3).map (fun row =>
    (List.range 3).map (fun col =>
      { left := col * cell_w,
        top := row * cell_h,
        right := if col < 2 then (col + 1) * cell_w else w,
        bottom := if row < 2 then (row + 1) * cell_h else h }))).flatten

/-- The pixel `(x, y)` lies in the (half-open) crop box `r`. -/
def inRect (r : Rect) (x y : Nat) : Prop :=
  r.left ≤ x ∧ x < r.right ∧ r.top ≤ y ∧ y < r.bottom

instance (r : Rect) (x y : Nat) : Decidable (inRect r x y) := by
  unfold inRect
  infer_instance

/-- The `i`-th crop box produced by `split_grid_3x3`. -/
def rectAt (w h : Nat) (i : Nat) : Rect :=
  (split_grid_3x3 w h).getD i ⟨0, 0, 0, 0⟩

/-- Column index of pixel column `x` in the 3-column scheme. -/
def colOf (w x : Nat) : Nat :=
  if x < w / 3 then 0 else if x < 2 * (w / 3) then 1 else 2

/-- Row index of pixel row `y` in the 3-row scheme. -/
def rowOf (h y : Nat) : Nat :=
  if y < h / 3 then 0 else if y < 2 * (h / 3) then 1 else 2

theorem colOf_lt3 (w x : Nat) : colOf w x < 3 := by
  unfold colOf
  split_ifs <;> omega

theorem rowOf_lt3 (h y : Nat) : rowOf h y < 3 := by
  unfold rowOf
  split_ifs <;> omega

theorem rectAt_fields (w h : Nat) (row col : Nat) (hr : row < 3) (hc : col < 3) :
    rectAt w h (3 * row + col) =
      ⟨col * (w / 3), row * (h / 3),
       if col < 2 then (col + 1) * (w / 3) else w,
       if row < 2 then (row + 1) * (h / 3) else h⟩ := by
  interval_cases row <;> interval_cases col <;> rfl

theorem inRect_cell (w h x y c r : Nat) (hx : x < w) (hy : y < h)
    (hc : c < 3) (hr : r < 3) :
    inRect ⟨c * (w / 3), r * (h / 3),
            if c < 2 then (c + 1) * (w / 3) else w,
            if r < 2 then (r + 1) * (h / 3) else h⟩ x y ↔
      (c = colOf w x ∧ r = rowOf h y) := by
  interval_cases c <;> interval_cases r <;>
    (simp only [inRect, colOf, rowOf]; split_ifs <;> (try simp_all) <;> omega)

theorem inRect_rectAt_iff (w h x y : Nat) (hx : x < w) (hy : y < h) (i : Fin 9) :
    inRect (rectAt w h i) x y ↔
      ((i : Nat) % 3 = colOf w x ∧ (i : Nat) / 3 = rowOf h y) := by
  have hi := i.isLt
  have hfields := rectAt_fields w h ((i : Nat) / 3) ((i : Nat) % 3)
    (by omega) (by omega)
  rw [show 3 * ((i : Nat) / 3) + (i : Nat) % 3 = (i : Nat) from by omega] at hfields
  rw [hfields]
  rw [inRect_cell w h x y _ _ hx hy (by omega) (by omega)]

/-- C3: for every image of width `w ≥ 1` and height `h ≥ 1`, `split_grid_3x3`
returns exactly 9 sub-images, in row-major reading order (index `3*row + col`
holds row `row`, column `col`), whose crop boxes tile the `w × h` rectangle
with no overlap and no gap (every pixel lies in exactly one box), and columns
0 and 1 have width `w / 3` while rows 0 and 1 have height `h / 3` (the last
column and row absorb the integer-division remainder). -/
theorem C3_split_grid_tiling (w h : Nat) (hw : 1 ≤ w) (hh : 1 ≤ h) :
    (split_grid_3x3 w h).length = 9 ∧
    (∀ row col : Nat, row < 3 → col < 3 →
      rectAt w h (3 * row + col) =
        ⟨col * (w / 3), row * (h / 3),
         if col < 2 then (col + 1) * (w / 3) else w,
         if row < 2 then (row + 1) * (h / 3) else h⟩) ∧
    (∀ x y : Nat, x < w → y < h →
      ∃ i : Fin 9, inRect (rectAt w h i) x y ∧
        ∀ j : Fin 9, inRect (rectAt w h j) x y → j = i) ∧
    (∀ row col : Nat, row < 3 → col < 3 →
      (col < 2 →
        (rectAt w h (3 * row + col)).right - (rectAt w h (3 * row + col)).left = w / 3) ∧
      (row < 2 →
        (rectAt w h (3 * row + col)).bottom - (rectAt w h (3 * row + col)).top = h / 3)) := by
  refine ⟨rfl, fun row col hr hc => rectAt_fields w h row col hr hc, ?_, ?_⟩
  · intro x y hx hy
    have hcol := colOf_lt3 w x
    have hrow := rowOf_lt3 h y
    refine ⟨⟨3 * rowOf h y + colOf w x, by omega⟩, ?_, ?_⟩
    · rw [inRect_rectAt_iff w h x y hx hy]
      constructor <;> (dsimp only; omega)
    · intro j hj
      rw [inRect_rectAt_iff w h x y hx hy] at hj
      apply Fin.ext
      dsimp only
      omega
  · intro row col hr hc
    rw [rectAt_fields w h row col hr hc]
    refine ⟨fun hlt => ?_, fun hlt => ?_⟩
    · rw [if_pos hlt]
      dsimp only
      interval_cases col <;> omega
    · dsimp only
      rw [if_pos hlt]
      interval_cases row <;> omega

/-- Witness for C3 at the concrete size 7 × 5 and pixel (6, 4). -/
theorem C3_split_grid_tiling_witness :
    (split_grid_3x3 7 5).length = 9 ∧
    ∃ i : Fin 9, inRect (rectAt 7 5 i) 6 4 ∧
      ∀ j : Fin 9, inRect (rectAt 7 5 j) 6 4 → j = i := by
  have h := C3_split_grid_tiling 7 5 (by decide) (by decide)
  exact ⟨h.1, h.2.2.1 6 4 (by decide) (by decide)⟩

/-!
## Job store (`core.py:1136-1330`)

The store has three components: the in-memory map `JOBS`, the per-job files
`job_{id}.json` on disk (modelled as parsed job records), and the set of other
local files (PDF exports and grid-preview PNGs).  A `Job` carries the fields of
the job dict created by `start_render_all_job`; the `script`/`read_pages`
payloads are carried opaquely (`JVal`) since no claim inspects them through the
store.  `RenderedPart` keeps the fields of `render_part_payload`'s result that
the store and its consumers read (`grid_path` for GC, `panels` for the PDF
exporter); the remaining fields (urls, base64 grid, meta) are not read by any
claimed operation.
-/

/-- Stored result of `render_part_payload` (`core.py:1020-1036`), restricted
to the fields read by cleanup and PDF export. -/
structure RenderedPart where
  grid_path : Option String
  panels : List String

/-- A job record (`core.py:1311-1321`). -/
structure Job where
  job_id : String
  created_at : Int
  status : String
  error : Option String
  part1 : Option RenderedPart
  part2 : Option RenderedPart
  pdf_path : Option String
  script : JVal
  read_pages : JVal

/-- A patch dict passed to `_job_set` (each field optional). -/
structure JobPatch where
  status : Option String := none
  error : Option (Option String) := none
  part1 : Option (Option RenderedPart) := none
  part2 : Option (Option RenderedPart) := none
  pdf_path : Option (Option String) := none

/-- Python `job.update(patch)` on the fields `_job_set` is called with. -/
def applyPatch (j : Job) (p : JobPatch) : Job :=
  { j with
    status := p.status.getD j.status,
    error := p.error.getD j.error,
    part1 := p.part1.getD j.part1,
    part2 := p.part2.getD j.part2,
    pdf_path := p.pdf_path.getD j.pdf_path }

/-- The whole job store: memory map, per-job disk files, other local files. -/
structure Store where
  mem : List (String × Job)
  disk : List (String × Job)
  files : List String

/-- `JOB_TTL_SECONDS = 60 * 30` (`core.py:1138`). -/
def JOB_TTL_SECONDS : Int := 60 * 30

/-- The GC condition `created and (now - created) > JOB_TTL_SECONDS`
(`core.py:1155`): a falsy (zero) `created_at` is never collected. -/
def isExpired (now : Int) (j : Job) : Bool :=
  j.created_at != 0 && now - j.created_at > JOB_TTL_SECONDS

/-- `_safe_unlink` (`core.py:276-282`) is a no-op on falsy paths. -/
def unlinkTargets (p : Option String) : List String :=
  match p with
  | some s => if s = "" then [] else [s]
  | none => []

/-- The local files `cleanup_jobs` deletes for one dead job: its PDF and the
grid previews of both parts (`core.py:1160-1165` and `_cleanup_preview_files_from_job`). -/
def jobLocalFiles (j : Job) : List String :=
  unlinkTargets j.pdf_path ++
    (match j.part1 with | some pt => unlinkTargets pt.grid_path | none => []) ++
    (match j.part2 with | some pt => unlinkTargets pt.grid_path | none => [])

/-- Remove from `files` every local file referenced by one of the dead jobs. -/
def removeFilesOf (files : List String) (dead : List Job) : List String :=
  files.filter (fun f => !(dead.any (fun j => (jobLocalFiles j).contains f)))

/-- Embedding of `cleanup_jobs` (`core.py:1145-1195`): phase 1 collects expired
in-memory jobs (dropping their disk file and local files), phase 2 scans the
remaining disk files directly (covering jobs present only on disk). -/
def cleanup_jobs (now : Int) (s : Store) : Store :=
  let deadMem := (s.mem.filter (fun kv => isExpired now kv.2)).map Prod.snd
  let deadIds := (s.mem.filter (fun kv => isExpired now kv.2)).map Prod.fst
  let mem1 := s.mem.filter (fun kv => !(isExpired now kv.2))
  let files1 := removeFilesOf s.files deadMem
  let disk1 := s.disk.filter (fun kv => !(deadIds.contains kv.1))
  let deadDisk := (disk1.filter (fun kv => isExpired now kv.2)).map Prod.snd
  let disk2 := disk1.filter (fun kv => !(isExpired now kv.2))
  let files2 := removeFilesOf files1 deadDisk
  { mem := mem1, disk := disk2, files := files2 }

/-- Writing `job_{id}.json`: replace the record if present, else create it. -/
def diskWrite (l : List (String × Job)) (k : String) (j : Job) : List (String × Job) :=
  if (List.lookup k l).isSome then
    l.map (fun kv => if kv.1 = k then (k, j) else kv)
  else
    l ++ [(k, j)]

/-- Embedding of `_job_set` (`core.py:1198-1212`): update memory and persist to
disk, reviving from disk first if needed; a job id found in neither place is
silently dropped. -/
def _job_set (s : Store) (jid : String) (p : JobPatch) : Store :=
  match List.lookup jid s.mem with
  | some j =>
      let j2 := applyPatch j p
      { s with
        mem := s.mem.map (fun kv => if kv.1 = jid then (jid, j2) else kv),
        disk := diskWrite s.disk jid j2 }
  | none =>
      match List.lookup jid s.disk with
      | some dj =>
          let j2 := applyPatch dj p
          { s with
            mem := (jid, j2) :: s.mem,
            disk := diskWrite s.disk jid j2 }
      | none => s

/-- Embedding of `get_job` (`core.py:1215-1228`): cleanup, then read from
memory, else revive from disk. -/
def get_job (now : Int) (s : Store) (jid : String) : Option Job × Store :=
  let s1 := cleanup_jobs now s
  match List.lookup jid s1.mem with
  | some j => (some j, s1)
  | none =>
      match List.lookup jid s1.disk with
      | some dj => (some dj, { s1 with mem := (jid, dj) :: s1.mem })
      | none => (none, s1)

/-- Embedding of `_render_job_worker` (`core.py:1241-1294`).  The outcome of
each `render_part_payload` task (success, raised exception, or
`future.result` timeout) is the `Except` argument; the function applies the
same `_job_set` sequence as the source. -/
def render_job_worker (s : Store) (jid : String)
    (r1 r2 : Except String RenderedPart) : Store :=
  let s1 := _job_set s jid { status := some "rendering_parallel", error := some none }
  let step1 :=
    match r1 with
    | .ok p1 => (_job_set s1 jid { part1 := some (some p1) }, ([] : List String))
    | .error e => (s1, ["Part 1 failed: " ++ e])
  let step2 :=
    match r2 with
    | .ok p2 => (_job_set step1.1 jid { part2 := some (some p2) }, ([] : List String))
    | .error e => (step1.1, ["Part 2 failed: " ++ e])
  let errs := step1.2 ++ step2.2
  if errs.isEmpty then
    _job_set step2.1 jid { status := some "done" }
  else
    _job_set step2.1 jid
      { status := some "error", error := some (some (String.intercalate "; " errs)) }

/-- Canonical PDF path `nanobanana_comic_panels_{job_id}.pdf` (`core.py:1390`). -/
def pdfPathFor (jid : String) : String :=
  "nanobanana_comic_panels_" ++ jid ++ ".pdf"

/-- The panels of an optional part (`(job.get("partN") or {}).get("panels") or []`). -/
def jobPanels (pt : Option RenderedPart) : List String :=
  match pt with
  | some p => p.panels
  | none => []

/-- Embedding of `ensure_job_pdf` (`core.py:1363-1394`).  The returned `Bool`
records whether `write_pdf_panel_by_panel` ran (`true`) or the recorded PDF
was returned as-is (`false`). -/
def ensure_job_pdf (now : Int) (s : Store) (jid : String) :
    Except String (String × Store × Bool) :=
  let s0 := cleanup_jobs now s
  let got := get_job now s0 jid
  match got.1 with
  | none => .error "job_id not found (expired or invalid)"
  | some job =>
      if job.status ≠ "done" then .error "job status is not done"
      else
        let panels1 := jobPanels job.part1
        let panels2 := jobPanels job.part2
        if panels1.length ≠ 9 ∨ panels2.length ≠ 9 then
          .error "Incomplete panels: expected 9 panels per part"
        else
          let s1 := got.2
          let canonical := pdfPathFor jid
          let doRegen : Except String (String × Store × Bool) :=
            let s2 := _job_set { s1 with files := canonical :: s1.files } jid
              { pdf_path := some (some canonical) }
            .ok (canonical, s2, true)
          match job.pdf_path with
          | some p =>
              if p ≠ "" then
                if s1.files.contains p then .ok (p, s1, false) else doRegen
              else doRegen
          | none => doRegen

/-! ## Association-list lemmas for the store -/

theorem lookup_mem {β : Type} {l : List (String × β)} {k : String} {b : β}
    (h : List.lookup k l = some b) : (k, b) ∈ l := by
  induction l with
  | nil => simp at h
  | cons kv rest ih =>
      rcases kv with ⟨a, c⟩
      rw [lookup_cons] at h
      by_cases hk : k = a
      · rw [if_pos hk] at h
        cases h
        subst hk
        exact List.mem_cons_self _ _
      · rw [if_neg hk] at h
        exact List.mem_cons_of_mem _ (ih h)

theorem lookup_none_not_keys {β : Type} {l : List (String × β)} {k : String}
    (h : List.lookup k l = none) : k ∉ l.map Prod.fst := by
  induction l with
  | nil => simp
  | cons kv rest ih =>
      rcases kv with ⟨a, c⟩
      rw [lookup_cons] at h
      by_cases hk : k = a
      · rw [if_pos hk] at h; simp at h
      · rw [if_neg hk] at h
        simp only [List.map_cons, List.mem_cons]
        rintro (rfl | hmem)
        · exact hk rfl
        · exact ih h hmem

theorem lookup_none_of_not_keys {β : Type} {l : List (String × β)} {k : String}
    (h : k ∉ l.map Prod.fst) : List.lookup k l = none := by
  induction l with
  | nil => rfl
  | cons kv rest ih =>
      rcases kv with ⟨a, c⟩
      simp only [List.map_cons, List.mem_cons] at h
      push_neg at h
      rw [lookup_cons, if_neg h.1]
      exact ih h.2

theorem lookup_filter_keep {β : Type} {l : List (String × β)} {k : String} {b : β}
    (q : String × β → Bool) (h : List.lookup k l = some b) (hq : q (k, b) = true) :
    List.lookup k (l.filter q) = some b := by
  induction l with
  | nil => simp at h
  | cons kv rest ih =>
      rcases kv with ⟨a, c⟩
      rw [lookup_cons] at h
      by_cases hk : k = a
      · rw [if_pos hk] at h
        cases h
        subst hk
        rw [List.filter_cons, if_pos (by simpa using hq)]
        rw [lookup_cons, if_pos rfl]
      · rw [if_neg hk] at h
        rw [List.filter_cons]
        split
        · rw [lookup_cons, if_neg hk]
          exact ih h
        · exact ih h

theorem lookup_filter_none {β : Type} {l : List (String × β)} {k : String}
    (q : String × β → Bool) (h : List.lookup k l = none) :
    List.lookup k (l.filter q) = none := by
  refine lookup_none_of_not_keys ?_
  intro hmem
  have hsub : ((l.filter q).map Prod.fst).Sublist (l.map Prod.fst) :=
    (List.filter_sublist l).map Prod.fst
  exact lookup_none_not_keys h (hsub.mem hmem)

theorem lookup_filter_drop {β : Type} {l : List (String × β)} {k : String} {b : β}
    (q : String × β → Bool) (hnodup : (l.map Prod.fst).Nodup)
    (h : List.lookup k l = some b) (hq : q (k, b) = false) :
    List.lookup k (l.filter q) = none := by
  induction l with
  | nil => simp at h
  | cons kv rest ih =>
      rcases kv with ⟨a, c⟩
      simp only [List.map_cons, List.nodup_cons] at hnodup
      rw [lookup_cons] at h
      by_cases hk : k = a
      · rw [if_pos hk] at h
        cases h
        subst hk
        rw [List.filter_cons, if_neg (by simp [hq])]
        exact lookup_filter_none q (lookup_none_of_not_keys hnodup.1)
      · rw [if_neg hk] at h
        rw [List.filter_cons]
        split
        · rw [lookup_cons, if_neg hk]
          exact ih hnodup.2 h
        · exact ih hnodup.2 h

theorem lookup_filter_key_false {β : Type} {l : List (String × β)} {k : String}
    (q : String × β → Bool) (hall : ∀ b, q (k, b) = false) :
    List.lookup k (l.filter q) = none := by
  induction l with
  | nil => rfl
  | cons kv rest ih =>
      rcases kv with ⟨a, c⟩
      rw [List.filter_cons]
      split
      · rename_i hqa
        have hka : k ≠ a := by
          rintro rfl
          rw [hall c] at hqa
          simp at hqa
        rw [lookup_cons, if_neg hka]
        exact ih
      · exact ih

theorem mem_map_replace {β : Type} {l : List (String × β)} {k : String} {j : β}
    {kv : String × β}
    (h : kv ∈ l.map (fun kv => if kv.1 = k then (k, j) else kv)) :
    kv ∈ l ∨ kv = (k, j) := by
  rw [List.mem_map] at h
  obtain ⟨orig, horig, heq⟩ := h
  by_cases hk : orig.1 = k
  · rw [if_pos hk] at heq
    exact Or.inr heq.symm
  · rw [if_neg hk] at heq
    exact Or.inl (heq ▸ horig)

theorem mem_diskWrite {l : List (String × Job)} {k : String} {j : Job}
    {kv : String × Job} (h : kv ∈ diskWrite l k j) : kv ∈ l ∨ kv = (k, j) := by
  unfold diskWrite at h
  split at h
  · exact mem_map_replace h
  · rcases List.mem_append.mp h with hmem | hmem
    · exact Or.inl hmem
    · simp at hmem
      exact Or.inr (by rw [hmem])

theorem diskWrite_lookup_self (l : List (String × Job)) (k : String) (j : Job) :
    List.lookup k (diskWrite l k j) = some j := by
  unfold diskWrite
  split
  · rename_i hpres
    rw [lookup_map_replace]
    simp [hpres]
  · rename_i habs
    refine lookup_append_single l k j ?_
    cases h : List.lookup k l with
    | none => rfl
    | some w => rw [h] at habs; simp at habs

/-! ## Cleanup lemmas -/

theorem cleanup_mem_alive (now : Int) (s : Store) :
    ∀ kv ∈ (cleanup_jobs now s).mem, isExpired now kv.2 = false := by
  intro kv hkv
  simp only [cleanup_jobs] at hkv
  have := List.of_mem_filter hkv
  simpa using this

theorem cleanup_disk_alive (now : Int) (s : Store) :
    ∀ kv ∈ (cleanup_jobs now s).disk, isExpired now kv.2 = false := by
  intro kv hkv
  simp only [cleanup_jobs] at hkv
  have := List.of_mem_filter hkv
  simpa using this

theorem cleanup_noop (now : Int) (s : Store)
    (hm : ∀ kv ∈ s.mem, isExpired now kv.2 = false)
    (hd : ∀ kv ∈ s.disk, isExpired now kv.2 = false) :
    cleanup_jobs now s = s := by
  simp only [cleanup_jobs]
  have hdeadm : s.mem.filter (fun kv => isExpired now kv.2) = [] :=
    List.filter_eq_nil_iff.mpr (fun kv hkv => by simp [hm kv hkv])
  have hmem1 : s.mem.filter (fun kv => !(isExpired now kv.2)) = s.mem :=
    List.filter_eq_self.mpr (fun kv hkv => by simp [hm kv hkv])
  have hdisk1 : s.disk.filter (fun kv => isExpired now kv.2) = [] :=
    List.filter_eq_nil_iff.mpr (fun kv hkv => by simp [hd kv hkv])
  have hdisk2 : s.disk.filter (fun kv => !(isExpired now kv.2)) = s.disk :=
    List.filter_eq_self.mpr (fun kv hkv => by simp [hd kv hkv])
  rw [hdeadm, hmem1]
  simp only [List.map_nil]
  have hrm : ∀ fl : List String, removeFilesOf fl [] = fl := by
    intro fl
    simp [removeFilesOf]
  have hcont : s.disk.filter (fun kv => !(List.contains ([] : List String) kv.1)) = s.disk := by
    refine List.filter_eq_self.mpr (fun kv hkv => by simp)
  rw [hrm, hcont, hdisk1, hdisk2]
  simp [hrm]

/-! ## `_job_set` lemmas -/

theorem job_set_mem_lookup (s : Store) (jid : String) (p : JobPatch) (j : Job)
    (hm : List.lookup jid s.mem = some j) :
    List.lookup jid (_job_set s jid p).mem = some (applyPatch j p) := by
  simp only [_job_set]
  rw [hm]
  dsimp only
  rw [lookup_map_replace, hm]
  rfl

theorem job_set_files (s : Store) (jid : String) (p : JobPatch) (j : Job)
    (hm : List.lookup jid s.mem = some j) :
    (_job_set s jid p).files = s.files := by
  simp only [_job_set]
  rw [hm]

theorem job_set_mem_entries (s : Store) (jid : String) (p : JobPatch) (j : Job)
    (hm : List.lookup jid s.mem = some j) :
    ∀ kv ∈ (_job_set s jid p).mem, kv ∈ s.mem ∨ kv = (jid, applyPatch j p) := by
  intro kv hkv
  simp only [_job_set] at hkv
  rw [hm] at hkv
  dsimp only at hkv
  exact mem_map_replace hkv

theorem job_set_disk_entries (s : Store) (jid : String) (p : JobPatch) (j : Job)
    (hm : List.lookup jid s.mem = some j) :
    ∀ kv ∈ (_job_set s jid p).disk, kv ∈ s.disk ∨ kv = (jid, applyPatch j p) := by
  intro kv hkv
  simp only [_job_set] at hkv
  rw [hm] at hkv
  dsimp only at hkv
  exact mem_diskWrite hkv

/-- C10: for every job id present neither in the in-memory map nor on disk,
`_job_set` returns normally and leaves the job store completely unchanged —
updates addressed to expired or unknown jobs are silently dropped. -/
theorem C10_job_set_unknown_noop (s : Store) (jid : String) (p : JobPatch)
    (hm : List.lookup jid s.mem = none) (hd : List.lookup jid s.disk = none) :
    _job_set s jid p = s := by
  simp only [_job_set]
  rw [hm, hd]

/-- Witness for C10 on the empty store. -/
theorem C10_job_set_unknown_noop_witness :
    _job_set ⟨[], [], []⟩ "missing" { status := some "done" } = ⟨[], [], []⟩ :=
  C10_job_set_unknown_noop ⟨[], [], []⟩ "missing" { status := some "done" } rfl rfl

/-- C2: for every job present in the store when the render worker runs, the
final status is `done` exactly when both part tasks succeed; any failure
(raise or timeout, both surfacing as `Except.error`) yields status `error`
whose message concatenates the failure messages of every failed part — only
"Part 1 failed: …" when only Part 1 fails (even though Part 2 completed),
only "Part 2 failed: …" when only Part 2 fails, and both joined by "; " when
both fail.  No terminal status other than `done`/`error` exists. -/
theorem C2_render_worker_terminal (s : Store) (jid : String) (j : Job)
    (r1 r2 : Except String RenderedPart)
    (hm : List.lookup jid s.mem = some j) :
    ∃ j2, List.lookup jid (render_job_worker s jid r1 r2).mem = some j2 ∧
      (j2.status = "done" ∨ j2.status = "error") ∧
      (match r1, r2 with
       | .ok _, .ok _ => j2.status = "done"
       | .error e1, .ok _ =>
           j2.status = "error" ∧ j2.error = some ("Part 1 failed: " ++ e1)
       | .ok _, .error e2 =>
           j2.status = "error" ∧ j2.error = some ("Part 2 failed: " ++ e2)
       | .error e1, .error e2 =>
           j2.status = "error" ∧
           j2.error = some ("Part 1 failed: " ++ e1 ++ "; " ++ ("Part 2 failed: " ++ e2))) := by
  cases r1 with
  | ok p1 =>
      cases r2 with
      | ok p2 =>
          simp only [render_job_worker, List.nil_append, List.isEmpty_nil, if_true]
          have h1 := job_set_mem_lookup s jid
            { status := some "rendering_parallel", error := some none } j hm
          have h2 := job_set_mem_lookup _ jid { part1 := some (some p1) } _ h1
          have h3 := job_set_mem_lookup _ jid { part2 := some (some p2) } _ h2
          have h4 := job_set_mem_lookup _ jid { status := some "done" } _ h3
          exact ⟨_, h4, by simp [applyPatch], by simp [applyPatch]⟩
      | error e2 =>
          simp only [render_job_worker, List.nil_append]
          have h1 := job_set_mem_lookup s jid
            { status := some "rendering_parallel", error := some none } j hm
          have h2 := job_set_mem_lookup _ jid { part1 := some (some p1) } _ h1
          have h3 := job_set_mem_lookup _ jid
            { status := some "error",
              error := some (some (String.intercalate "; " ["Part 2 failed: " ++ e2])) } _ h2
          exact ⟨_, h3, by simp [applyPatch], by simp [applyPatch],
            by simp [applyPatch]; rfl⟩
  | error e1 =>
      cases r2 with
      | ok p2 =>
          simp only [render_job_worker, List.append_nil]
          have h1 := job_set_mem_lookup s jid
            { status := some "rendering_parallel", error := some none } j hm
          have h2 := job_set_mem_lookup _ jid { part2 := some (some p2) } _ h1
          have h3 := job_set_mem_lookup _ jid
            { status := some "error",
              error := some (some (String.intercalate "; " ["Part 1 failed: " ++ e1])) } _ h2
          exact ⟨_, h3, by simp [applyPatch], by simp [applyPatch],
            by simp [applyPatch]; rfl⟩
      | error e2 =>
          simp only [render_job_worker]
          have h1 := job_set_mem_lookup s jid
            { status := some "rendering_parallel", error := some none } j hm
          have h2 := job_set_mem_lookup _ jid
            { status := some "error",
              error := some (some (String.intercalate "; "
                ["Part 1 failed: " ++ e1, "Part 2 failed: " ++ e2])) } _ h1
          exact ⟨_, h2, by simp [applyPatch], by simp [applyPatch],
            by simp [applyPatch]; rfl⟩

/-- Witness for C2: a store with one queued job, Part 1 failing and Part 2
succeeding. -/
theorem C2_render_worker_terminal_witness :
    ∃ j2,
      List.lookup "jw"
        (render_job_worker
          ⟨[("jw",
             { job_id := "jw", created_at := 100, status := "queued", error := none,
               part1 := none, part2 := none, pdf_path := none,
               script := .null, read_pages := .null })], [], []⟩
          "jw" (.error "boom") (.ok { grid_path := none, panels := [] })).mem = some j2 ∧
      (j2.status = "done" ∨ j2.status = "error") ∧
      (j2.status = "error" ∧ j2.error = some ("Part 1 failed: " ++ "boom")) := by
  have h := C2_render_worker_terminal
    ⟨[("jw",
       { job_id := "jw", created_at := 100, status := "queued", error := none,
         part1 := none, part2 := none, pdf_path := none,
         script := .null, read_pages := .null })], [], []⟩
    "jw"
    { job_id := "jw", created_at := 100, status := "queued", error := none,
      part1 := none, part2 := none, pdf_path := none,
      script := .null, read_pages := .null }
    (.error "boom") (.ok { grid_path := none, panels := [] }) rfl
  exact h

/-! ## Cleanup garbage-collection lemmas (C4) -/

theorem cleanup_mem_none_of_expired (now : Int) (s : Store) (jid : String) (j : Job)
    (hmnod : (s.mem.map Prod.fst).Nodup)
    (hm : List.lookup jid s.mem = some j) (hexp : isExpired now j = true) :
    List.lookup jid (cleanup_jobs now s).mem = none := by
  simp only [cleanup_jobs]
  exact lookup_filter_drop _ hmnod hm (by simp [hexp])

theorem cleanup_disk_none_of_mem_expired (now : Int) (s : Store) (jid : String) (j : Job)
    (hm : List.lookup jid s.mem = some j) (hexp : isExpired now j = true) :
    List.lookup jid (cleanup_jobs now s).disk = none := by
  simp only [cleanup_jobs]
  have hjdead : jid ∈ (s.mem.filter (fun kv => isExpired now kv.2)).map Prod.fst := by
    rw [List.mem_map]
    exact ⟨(jid, j), List.mem_filter.mpr ⟨lookup_mem hm, by simp [hexp]⟩, rfl⟩
  refine lookup_filter_none _ ?_
  refine lookup_filter_key_false _ ?_
  intro b
  simpa using hjdead

theorem cleanup_disk_none_of_disk_expired (now : Int) (s : Store) (jid : String) (j : Job)
    (hdnod : (s.disk.map Prod.fst).Nodup)
    (hmnone : List.lookup jid s.mem = none)
    (hd : List.lookup jid s.disk = some j) (hexp : isExpired now j = true) :
    List.lookup jid (cleanup_jobs now s).disk = none := by
  simp only [cleanup_jobs]
  have hnotkeys : jid ∉ s.mem.map Prod.fst := lookup_none_not_keys hmnone
  have hnotdead : jid ∉ (s.mem.filter (fun kv => isExpired now kv.2)).map Prod.fst := by
    intro hc
    exact hnotkeys (((List.filter_sublist _).map Prod.fst).mem hc)
  have hkeep :
      List.lookup jid
        (s.disk.filter (fun kv =>
          !(List.contains ((s.mem.filter (fun kv => isExpired now kv.2)).map Prod.fst) kv.1))) =
        some j := by
    refine lookup_filter_keep _ hd ?_
    simpa using hnotdead
  have hnod1 :
      ((s.disk.filter (fun kv =>
        !(List.contains ((s.mem.filter (fun kv => isExpired now kv.2)).map Prod.fst) kv.1))).map
          Prod.fst).Nodup :=
    hdnod.sublist ((List.filter_sublist _).map Prod.fst)
  exact lookup_filter_drop _ hnod1 hkeep (by simp [hexp])

theorem cleanup_files_removed_of_mem_expired (now : Int) (s : Store) (jid : String)
    (j : Job) (hm : List.lookup jid s.mem = some j) (hexp : isExpired now j = true) :
    ∀ f ∈ jobLocalFiles j, f ∉ (cleanup_jobs now s).files := by
  intro f hf hmem
  simp only [cleanup_jobs, removeFilesOf] at hmem
  have hf3 := List.mem_of_mem_filter hmem
  have hf4 := List.of_mem_filter hf3
  have hjdead : j ∈ (s.mem.filter (fun kv => isExpired now kv.2)).map Prod.snd := by
    rw [List.mem_map]
    exact ⟨(jid, j), List.mem_filter.mpr ⟨lookup_mem hm, by simp [hexp]⟩, rfl⟩
  have hany :
      ((s.mem.filter (fun kv => isExpired now kv.2)).map Prod.snd).any
        (fun j2 => (jobLocalFiles j2).contains f) = true :=
    List.any_eq_true.mpr ⟨j, hjdead, by simpa using hf⟩
  rw [hany] at hf4
  simp at hf4

theorem cleanup_files_removed_of_disk_expired (now : Int) (s : Store) (jid : String)
    (j : Job) (hmnone : List.lookup jid s.mem = none)
    (hd : List.lookup jid s.disk = some j) (hexp : isExpired now j = true) :
    ∀ f ∈ jobLocalFiles j, f ∉ (cleanup_jobs now s).files := by
  intro f hf hmem
  simp only [cleanup_jobs, removeFilesOf] at hmem
  have hf4 := List.of_mem_filter hmem
  have hnotkeys : jid ∉ s.mem.map Prod.fst := lookup_none_not_keys hmnone
  have hnotdead : jid ∉ (s.mem.filter (fun kv => isExpired now kv.2)).map Prod.fst := by
    intro hc
    exact hnotkeys (((List.filter_sublist _).map Prod.fst).mem hc)
  have hjdisk1 :
      (jid, j) ∈ s.disk.filter (fun kv =>
        !(List.contains ((s.mem.filter (fun kv => isExpired now kv.2)).map Prod.fst) kv.1)) :=
    List.mem_filter.mpr ⟨lookup_mem hd, by simpa using hnotdead⟩
  have hjdead : j ∈
      ((s.disk.filter (fun kv =>
        !(List.contains ((s.mem.filter (fun kv => isExpired now kv.2)).map Prod.fst) kv.1))).filter
          (fun kv => isExpired now kv.2)).map Prod.snd := by
    rw [List.mem_map]
    exact ⟨(jid, j), List.mem_filter.mpr ⟨hjdisk1, by simp [hexp]⟩, rfl⟩
  have hany :
      (((s.disk.filter (fun kv =>
        !(List.contains ((s.mem.filter (fun kv => isExpired now kv.2)).map Prod.fst) kv.1))).filter
          (fun kv => isExpired now kv.2)).map Prod.snd).any
        (fun j2 => (jobLocalFiles j2).contains f) = true :=
    List.any_eq_true.mpr ⟨j, hjdead, by simpa using hf⟩
  rw [hany] at hf4
  simp at hf4

/-- C4 (amended): after a `cleanup_jobs` pass at time `now`, every job whose
`created_at` is NONZERO and strictly older than the 30-minute TTL is removed
from both the in-memory map and the on-disk job file (so a subsequent
`get_job` returns none), and its local PDF and grid-preview files are deleted;
every job whose `created_at` is within the TTL remains retrievable via
`get_job`.  (The code's guard `if created and … > TTL` skips a falsy
`created_at`, hence the nonzero proviso; see the counterexample.) -/
theorem C4_cleanup_gc (now : Int) (s : Store) (jid : String) (j : Job)
    (hmnod : (s.mem.map Prod.fst).Nodup) (hdnod : (s.disk.map Prod.fst).Nodup)
    (hfound : List.lookup jid s.mem = some j ∨
      (List.lookup jid s.mem = none ∧ List.lookup jid s.disk = some j)) :
    (j.created_at ≠ 0 → JOB_TTL_SECONDS < now - j.created_at →
      List.lookup jid (cleanup_jobs now s).mem = none ∧
      List.lookup jid (cleanup_jobs now s).disk = none ∧
      (get_job now s jid).1 = none ∧
      ∀ f ∈ jobLocalFiles j, f ∉ (cleanup_jobs now s).files) ∧
    (now - j.created_at ≤ JOB_TTL_SECONDS →
      (get_job now s jid).1 = some j) := by
  constructor
  · intro hc hold
    have hexp : isExpired now j = true := by
      simp [isExpired, hc]
      omega
    rcases hfound with hm | ⟨hmnone, hd⟩
    · have h1 := cleanup_mem_none_of_expired now s jid j hmnod hm hexp
      have h2 := cleanup_disk_none_of_mem_expired now s jid j hm hexp
      refine ⟨h1, h2, ?_, cleanup_files_removed_of_mem_expired now s jid j hm hexp⟩
      simp only [get_job]
      rw [h1, h2]
    · have h1 : List.lookup jid (cleanup_jobs now s).mem = none := by
        simp only [cleanup_jobs]
        exact lookup_filter_none _ hmnone
      have h2 := cleanup_disk_none_of_disk_expired now s jid j hdnod hmnone hd hexp
      refine ⟨h1, h2, ?_, cleanup_files_removed_of_disk_expired now s jid j hmnone hd hexp⟩
      simp only [get_job]
      rw [h1, h2]
  · intro hyoung
    have hexp : isExpired now j = false := by
      simp [isExpired]
      intro _
      omega
    rcases hfound with hm | ⟨hmnone, hd⟩
    · have hkeep : List.lookup jid (cleanup_jobs now s).mem = some j := by
        simp only [cleanup_jobs]
        exact lookup_filter_keep _ hm (by simp [hexp])
      simp only [get_job]
      rw [hkeep]
    · have h1 : List.lookup jid (cleanup_jobs now s).mem = none := by
        simp only [cleanup_jobs]
        exact lookup_filter_none _ hmnone
      have hnotkeys : jid ∉ s.mem.map Prod.fst := lookup_none_not_keys hmnone
      have hnotdead : jid ∉ (s.mem.filter (fun kv => isExpired now kv.2)).map Prod.fst := by
        intro hcmem
        exact hnotkeys (((List.filter_sublist _).map Prod.fst).mem hcmem)
      have hkeep : List.lookup jid (cleanup_jobs now s).disk = some j := by
        simp only [cleanup_jobs]
        refine lookup_filter_keep _ ?_ (by simp [hexp])
        refine lookup_filter_keep _ hd ?_
        simpa using hnotdead
      simp only [get_job]
      rw [h1, hkeep]

/-- A job record whose `created_at` is the falsy timestamp `0`. -/
def jobZero : Job :=
  { job_id := "j0", created_at := 0, status := "done", error := none,
    part1 := none, part2 := none, pdf_path := some "zombie.pdf",
    script := .null, read_pages := .null }

/-- A store holding only `jobZero`, in memory and on disk. -/
def storeZero : Store := ⟨[("j0", jobZero)], [("j0", jobZero)], ["zombie.pdf"]⟩

/-- C4 counterexample: at `now = 1000000` the job with `created_at = 0` is
strictly older than the TTL, yet `cleanup_jobs` keeps it in memory (and
`get_job` still returns it), because the guard `if created and (now - created)
> JOB_TTL_SECONDS` skips a falsy timestamp. -/
theorem C4_counterexample :
    JOB_TTL_SECONDS < 1000000 - jobZero.created_at ∧
    List.lookup "j0" (cleanup_jobs 1000000 storeZero).mem = some jobZero ∧
    (get_job 1000000 storeZero "j0").1 = some jobZero := by
  refine ⟨by decide, rfl, rfl⟩

/-- A job record old enough to be collected, with local files. -/
def jobOld : Job :=
  { job_id := "jo", created_at := 100, status := "done", error := none,
    part1 := some { grid_path := some "grid1.png", panels := [] },
    part2 := some { grid_path := some "grid2.png", panels := [] },
    pdf_path := some "old.pdf", script := .null, read_pages := .null }

/-- A store holding only `jobOld`. -/
def storeOld : Store :=
  ⟨[("jo", jobOld)], [("jo", jobOld)], ["old.pdf", "grid1.png", "grid2.png"]⟩

/-- Witness for C4: the expired concrete job is gone from memory, disk,
`get_job`, and the file set. -/
theorem C4_cleanup_gc_witness :
    List.lookup "jo" (cleanup_jobs 10000 storeOld).mem = none ∧
    List.lookup "jo" (cleanup_jobs 10000 storeOld).disk = none ∧
    (get_job 10000 storeOld "jo").1 = none ∧
    ∀ f ∈ jobLocalFiles jobOld, f ∉ (cleanup_jobs 10000 storeOld).files := by
  exact (C4_cleanup_gc 10000 storeOld "jo" jobOld (by decide) (by decide)
    (Or.inl rfl)).1 (by decide) (by decide)

/-! ## `ensure_job_pdf` lemmas (C5) -/

theorem cleanup_idem (now : Int) (s : Store) :
    cleanup_jobs now (cleanup_jobs now s) = cleanup_jobs now s :=
  cleanup_noop now _ (cleanup_mem_alive now s) (cleanup_disk_alive now s)

theorem pdfPathFor_ne_empty (jid : String) : pdfPathFor jid ≠ "" := by
  intro h
  have h2 := congrArg String.data h
  simp [pdfPathFor, String.data_append] at h2

theorem ensure_eval_hit (now : Int) (s0 : Store) (jid : String) (j : Job) (p : String)
    (hclean : cleanup_jobs now s0 = s0)
    (hmx : List.lookup jid s0.mem = some j)
    (hst : j.status = "done")
    (h1 : (jobPanels j.part1).length = 9) (h2 : (jobPanels j.part2).length = 9)
    (hpdf : j.pdf_path = some p) (hne : p ≠ "")
    (hcont : s0.files.contains p = true) :
    ensure_job_pdf now s0 jid = .ok (p, s0, false) := by
  simp only [ensure_job_pdf, get_job]
  rw [hclean, hclean, hmx]
  dsimp only
  rw [if_neg (by simp [hst]), if_neg (by simp [h1, h2]), hpdf]
  dsimp only
  rw [if_pos hne, if_pos hcont]

theorem ensure_eval_regen_none (now : Int) (s0 : Store) (jid : String) (j : Job)
    (hclean : cleanup_jobs now s0 = s0)
    (hmx : List.lookup jid s0.mem = some j)
    (hst : j.status = "done")
    (h1 : (jobPanels j.part1).length = 9) (h2 : (jobPanels j.part2).length = 9)
    (hpdf : j.pdf_path = none) :
    ensure_job_pdf now s0 jid =
      .ok (pdfPathFor jid,
        _job_set { s0 with files := pdfPathFor jid :: s0.files } jid
          { pdf_path := some (some (pdfPathFor jid)) }, true) := by
  simp only [ensure_job_pdf, get_job]
  rw [hclean, hclean, hmx]
  dsimp only
  rw [if_neg (by simp [hst]), if_neg (by simp [h1, h2]), hpdf]

theorem ensure_eval_regen_missing (now : Int) (s0 : Store) (jid : String) (j : Job)
    (p : String)
    (hclean : cleanup_jobs now s0 = s0)
    (hmx : List.lookup jid s0.mem = some j)
    (hst : j.status = "done")
    (h1 : (jobPanels j.part1).length = 9) (h2 : (jobPanels j.part2).length = 9)
    (hpdf : j.pdf_path = some p) (hne : p ≠ "")
    (hcont : s0.files.contains p = false) :
    ensure_job_pdf now s0 jid =
      .ok (pdfPathFor jid,
        _job_set { s0 with files := pdfPathFor jid :: s0.files } jid
          { pdf_path := some (some (pdfPathFor jid)) }, true) := by
  simp only [ensure_job_pdf, get_job]
  rw [hclean, hclean, hmx]
  dsimp only
  rw [if_neg (by simp [hst]), if_neg (by simp [h1, h2]), hpdf]
  dsimp only
  rw [if_pos hne, hcont]
  simp

theorem ensure_eval_regen_emptypath (now : Int) (s0 : Store) (jid : String) (j : Job)
    (hclean : cleanup_jobs now s0 = s0)
    (hmx : List.lookup jid s0.mem = some j)
    (hst : j.status = "done")
    (h1 : (jobPanels j.part1).length = 9) (h2 : (jobPanels j.part2).length = 9)
    (hpdf : j.pdf_path = some "") :
    ensure_job_pdf now s0 jid =
      .ok (pdfPathFor jid,
        _job_set { s0 with files := pdfPathFor jid :: s0.files } jid
          { pdf_path := some (some (pdfPathFor jid)) }, true) := by
  simp only [ensure_job_pdf, get_job]
  rw [hclean, hclean, hmx]
  dsimp only
  rw [if_neg (by simp [hst]), if_neg (by simp [h1, h2]), hpdf]
  dsimp only
  rw [if_neg (by simp)]

theorem ensure_cleanup_congr (now : Int) (s : Store) (jid : String) :
    ensure_job_pdf now s jid = ensure_job_pdf now (cleanup_jobs now s) jid := by
  simp only [ensure_job_pdf, get_job, cleanup_idem]

/-- C5 (amended): for every job in status `done` with 9 panels in each part
(and within the TTL), calling `ensure_job_pdf` twice returns the same file
path both times, and the second call returns the already-recorded path without
regenerating; it regenerates only when the job has no recorded `pdf_path` or
the recorded file no longer exists (NOT, as claimed, only when no PDF exists
at the canonical path — see the counterexample). -/
theorem C5_ensure_pdf_idempotent (now : Int) (s : Store) (jid : String) (j : Job)
    (hm : List.lookup jid s.mem = some j)
    (hexp : isExpired now j = false)
    (hstatus : j.status = "done")
    (hp1 : (jobPanels j.part1).length = 9)
    (hp2 : (jobPanels j.part2).length = 9) :
    ∃ p1 s1 g1,
      ensure_job_pdf now s jid = .ok (p1, s1, g1) ∧
      (∃ s2, ensure_job_pdf now s1 jid = .ok (p1, s2, false)) ∧
      (∀ p, j.pdf_path = some p → p ≠ "" →
        (cleanup_jobs now s).files.contains p = true → g1 = false) := by
  have hidem := cleanup_idem now s
  have hkeep0 : List.lookup jid (cleanup_jobs now s).mem = some j := by
    simp only [cleanup_jobs]
    exact lookup_filter_keep _ hm (by simp [hexp])
  have hmR : List.lookup jid
      ({ cleanup_jobs now s with
          files := pdfPathFor jid :: (cleanup_jobs now s).files } : Store).mem = some j :=
    hkeep0
  have hm2 := job_set_mem_lookup
    { cleanup_jobs now s with files := pdfPathFor jid :: (cleanup_jobs now s).files }
    jid { pdf_path := some (some (pdfPathFor jid)) } j hmR
  have hclean2 : cleanup_jobs now
      (_job_set
        { cleanup_jobs now s with files := pdfPathFor jid :: (cleanup_jobs now s).files }
        jid { pdf_path := some (some (pdfPathFor jid)) }) =
      _job_set
        { cleanup_jobs now s with files := pdfPathFor jid :: (cleanup_jobs now s).files }
        jid { pdf_path := some (some (pdfPathFor jid)) } := by
    apply cleanup_noop
    · intro kv hkv
      rcases job_set_mem_entries _ jid _ j hmR kv hkv with hin | heq
      · exact cleanup_mem_alive now s kv hin
      · rw [heq]
        simpa [isExpired, applyPatch] using hexp
    · intro kv hkv
      rcases job_set_disk_entries _ jid _ j hmR kv hkv with hin | heq
      · exact cleanup_disk_alive now s kv hin
      · rw [heq]
        simpa [isExpired, applyPatch] using hexp
  have hst2 : (applyPatch j { pdf_path := some (some (pdfPathFor jid)) }).status = "done" := by
    simp [applyPatch, hstatus]
  have hp12 : (jobPanels
      (applyPatch j { pdf_path := some (some (pdfPathFor jid)) }).part1).length = 9 := by
    simpa [applyPatch] using hp1
  have hp22 : (jobPanels
      (applyPatch j { pdf_path := some (some (pdfPathFor jid)) }).part2).length = 9 := by
    simpa [applyPatch] using hp2
  have hpdf2 : (applyPatch j { pdf_path := some (some (pdfPathFor jid)) }).pdf_path =
      some (pdfPathFor jid) := by
    simp [applyPatch]
  have hfilesR := job_set_files
    { cleanup_jobs now s with files := pdfPathFor jid :: (cleanup_jobs now s).files }
    jid { pdf_path := some (some (pdfPathFor jid)) } j hmR
  have hcont2 : (_job_set
      { cleanup_jobs now s with files := pdfPathFor jid :: (cleanup_jobs now s).files }
      jid { pdf_path := some (some (pdfPathFor jid)) }).files.contains (pdfPathFor jid) =
      true := by
    rw [hfilesR]
    simp
  have hsecond := ensure_eval_hit now _ jid _ (pdfPathFor jid) hclean2 hm2 hst2 hp12 hp22
    hpdf2 (pdfPathFor_ne_empty jid) hcont2
  cases hpdf : j.pdf_path with
  | none =>
      have hfirst := ensure_eval_regen_none now (cleanup_jobs now s) jid j hidem hkeep0
        hstatus hp1 hp2 hpdf
      refine ⟨pdfPathFor jid, _, true, ?_, ⟨_, hsecond⟩, ?_⟩
      · rw [ensure_cleanup_congr]
        exact hfirst
      · intro p hp
        simp at hp
  | some p =>
      by_cases hne : p = ""
      · subst hne
        have hfirst := ensure_eval_regen_emptypath now (cleanup_jobs now s) jid j hidem
          hkeep0 hstatus hp1 hp2 hpdf
        refine ⟨pdfPathFor jid, _, true, ?_, ⟨_, hsecond⟩, ?_⟩
        · rw [ensure_cleanup_congr]
          exact hfirst
        · intro p2 hp2 hne2
          cases hp2
          exact absurd rfl hne2
      · by_cases hcont : (cleanup_jobs now s).files.contains p = true
        · have hfirst := ensure_eval_hit now (cleanup_jobs now s) jid j p hidem hkeep0
            hstatus hp1 hp2 hpdf hne hcont
          exact ⟨p, cleanup_jobs now s, false,
            by rw [ensure_cleanup_congr]; exact hfirst,
            ⟨cleanup_jobs now s, hfirst⟩,
            fun _ _ _ _ => rfl⟩
        · have hcf : (cleanup_jobs now s).files.contains p = false := by
            simpa using hcont
          have hfirst := ensure_eval_regen_missing now (cleanup_jobs now s) jid j p hidem
            hkeep0 hstatus hp1 hp2 hpdf hne hcf
          refine ⟨pdfPathFor jid, _, true, ?_, ⟨_, hsecond⟩, ?_⟩
          · rw [ensure_cleanup_congr]
            exact hfirst
          · intro p2 hp2 hne2 hcont2
            cases hp2
            rw [hcf] at hcont2
            exact Bool.noConfusion hcont2

/-- A rendered part with 9 panels. -/
def partNine : RenderedPart := { grid_path := none, panels := List.replicate 9 "panel" }

/-- A finished job with 9 panels per part and no recorded `pdf_path`. -/
def jobC5 : Job :=
  { job_id := "j5", created_at := 100, status := "done", error := none,
    part1 := some partNine, part2 := some partNine,
    pdf_path := none, script := .null, read_pages := .null }

/-- A store holding `jobC5` where a file already exists at the job's canonical
PDF path. -/
def storeC5 : Store := ⟨[("j5", jobC5)], [("j5", jobC5)], [pdfPathFor "j5"]⟩

/-- C5 counterexample: a PDF already exists at the job's canonical path, but
the job has no recorded `pdf_path`, so `ensure_job_pdf` regenerates the PDF
anyway (the returned flag `true` records that `write_pdf_panel_by_panel`
ran): the code consults the job's recorded `pdf_path`, not the canonical
path, so "regenerates only when no PDF exists at the job's canonical path"
fails on this input. -/
theorem C5_counterexample :
    pdfPathFor "j5" ∈ storeC5.files ∧ jobC5.pdf_path = none ∧
    ∃ s2, ensure_job_pdf 200 storeC5 "j5" = .ok (pdfPathFor "j5", s2, true) := by
  refine ⟨by simp [storeC5], rfl, ⟨_, rfl⟩⟩

/-- Witness for C5 at the concrete store `storeC5`. -/
theorem C5_ensure_pdf_idempotent_witness :
    ∃ p1 s1 g1,
      ensure_job_pdf 200 storeC5 "j5" = .ok (p1, s1, g1) ∧
      (∃ s2, ensure_job_pdf 200 s1 "j5" = .ok (p1, s2, false)) ∧
      (∀ p, jobC5.pdf_path = some p → p ≠ "" →
        (cleanup_jobs 200 storeC5).files.contains p = true → g1 = false) :=
  C5_ensure_pdf_idempotent 200 storeC5 "j5" jobC5 rfl rfl rfl rfl rfl

/-!
## Script generation (`core.py:620-757`) — C6

`make_two_part_script` builds one prompt, calls the text model, parses and
shape-validates the response, and on failure issues exactly one repair call.
The Vertex call `_call_text_model` is abstracted as an oracle from the call
index to the returned text (call 0 = the main prompt at temperature 0.35,
call 1 = the repair prompt at temperature 0.0), and the JSON extraction
`safe_json_from_text` (regex fence-stripping + `json.loads`) as the `parse`
parameter; prompt construction only affects the text sent to the oracle and
is elided.  `validate_script_shape` is the embedding proved for C1.
-/

/-- The post-validation nuance-metadata fixup (`core.py:750-756`):
`setdefault` the `global.nuances` dict and overwrite its `selected_ids` and
`selected_labels`. -/
def setNuanceMeta (chosen : List String) (labels : String) (s : JVal) : JVal :=
  match s with
  | .obj fs =>
      match objGet fs "global" with
      | some (.obj g) =>
          let g1 := if (objGet g "nuances").isSome then g else g ++ [("nuances", .obj [])]
          match objGet g1 "nuances" with
          | some (.obj nu) =>
              let nu1 := objSet (objSet nu "selected_ids" (.arr (chosen.map .str)))
                "selected_labels" (.str labels)
              .obj (objSet fs "global" (.obj (objSet g1 "nuances" (.obj nu1))))
          | _ => .obj (objSet fs "global" (.obj g1))
      | _ => s
  | _ => s

/-- Embedding of `make_two_part_script` (`core.py:709-757`): parse and
validate the first response; on any failure make exactly one repair call and
re-validate; a second failure propagates (the `ScriptGenerationError` path).
Returns the result together with the number of text-model calls made. -/
def make_two_part_script (parse : String → Except String JVal)
    (callModel : Nat → String) (chosen : List String) (labels : String) :
    Except String JVal × Nat :=
  let raw_text := callModel 0
  match (parse raw_text).bind validate_script_shape with
  | .ok script => (.ok (setNuanceMeta chosen labels script), 1)
  | .error _ =>
      let repaired_text := callModel 1
      match (parse repaired_text).bind validate_script_shape with
      | .ok script => (.ok (setNuanceMeta chosen labels script), 2)
      | .error e => (.error e, 2)

/-- C6: `make_two_part_script` calls the text model once and succeeds with a
single call exactly when the first response parses and validates; otherwise
it issues exactly one repair call and re-validates, and if the repaired
response also fails parsing or validation the call fails with that error and
no further model calls are made — so at most 2 text-model calls occur for
every input. -/
theorem C6_make_script_one_repair (parse : String → Except String JVal)
    (callModel : Nat → String) (chosen : List String) (labels : String) :
    (make_two_part_script parse callModel chosen labels).2 ≤ 2 ∧
    (((parse (callModel 0)).bind validate_script_shape).isOk = true ↔
      (make_two_part_script parse callModel chosen labels).2 = 1) ∧
    (∀ e, (parse (callModel 0)).bind validate_script_shape = .error e →
      (make_two_part_script parse callModel chosen labels).2 = 2 ∧
      ((make_two_part_script parse callModel chosen labels).1.isOk = true ↔
        ((parse (callModel 1)).bind validate_script_shape).isOk = true)) := by
  simp only [make_two_part_script]
  cases h0 : (parse (callModel 0)).bind validate_script_shape with
  | ok script =>
      refine ⟨by simp, by simp [Except.isOk, Except.toBool], ?_⟩
      intro e he
      exact absurd he (by simp)
  | error e0 =>
      refine ⟨?_, ?_, ?_⟩
      · cases (parse (callModel 1)).bind validate_script_shape <;> simp
      · constructor
        · intro hok
          simp [Except.isOk, Except.toBool] at hok
        · intro hone
          cases h1 : (parse (callModel 1)).bind validate_script_shape <;>
            rw [h1] at hone <;> simp at hone
      · intro e he
        cases h1 : (parse (callModel 1)).bind validate_script_shape <;>
          simp [h1, Except.isOk, Except.toBool]

/-- A concrete parse function for the C6 witness: only `"good"` parses. -/
def parseC6 : String → Except String JVal :=
  fun s => if s = "good" then .ok (mkScript 1 2) else .error "bad JSON"

/-- A concrete oracle for the C6 witness: first response bad, repair good. -/
def oracleC6 : Nat → String :=
  fun n => if n = 0 then "bad" else "good"

/-- Witness for C6: first call fails, the single repair call succeeds, and
exactly 2 calls are made. -/
theorem C6_make_script_one_repair_witness :
    (make_two_part_script parseC6 oracleC6 [] "").2 ≤ 2 ∧
    (make_two_part_script parseC6 oracleC6 [] "").2 = 2 ∧
    (make_two_part_script parseC6 oracleC6 [] "").1.isOk = true := by
  have h := C6_make_script_one_repair parseC6 oracleC6 [] ""
  have h2 := h.2.2 "bad JSON" (by rfl)
  exact ⟨h.1, h2.1, h2.2.mpr (by rfl)⟩

/-!
## Video synthesis (`video_generator.py`) — C8, C9

`generate_cinematic_video` computes, per panel, the TTS input text and the
panel's on-screen duration.  Durations are floats in the source; they are
modelled as exact rationals (`ℚ`), which preserves the claimed arithmetic
`max(MIN, a + transition + buffer)`.  TTS synthesis is abstracted as an
oracle `tts : String → Option ℚ` mapping the synthesized text to the
measured audio duration (`none` = synthesis failed); the two uses of
`random` in dialogue reformatting are explicit streams `flip`/`pick`.
-/

/-- `PANEL_DURATION = 4.0` (`video_generator.py:37`). -/
def PANEL_DURATION : ℚ := 4

/-- `TRANSITION_DURATION = 0.5` (`video_generator.py:38`). -/
def TRANSITION_DURATION : ℚ := 1 / 2

/-- `MIN_PANEL_DURATION = 3.0` (`video_generator.py:39`). -/
def MIN_PANEL_DURATION : ℚ := 3

/-- `MAX_PANEL_DURATION = 8.0` (`video_generator.py:40`), never applied. -/
def MAX_PANEL_DURATION : ℚ := 8

/-- `ucap_words` (`video_generator.py:330`). -/
def ucapWords : List String := ["ucap", "kata", "ujar", "tukas"]

/-- Python `d.split(":", 1)` when `":" in d`: text before and after the first
colon (`none` when no colon occurs). -/
def breakAtColon : List Char → Option (List Char × List Char)
  | [] => none
  | c :: cs =>
      if c = ':' then some ([], cs)
      else (breakAtColon cs).map (fun pr => (c :: pr.1, pr.2))

/-- Reformat one string dialogue line `"Name: text"` into spoken attribution
(`video_generator.py:322-339`); a line without a colon is kept as is. -/
def reformatDialogueItem (flip : Bool) (pick : Nat) (d : String) : String :=
  match breakAtColon d.toList with
  | some pr =>
      let name := pyStrip (String.mk pr.1)
      let text := ((pyStrip (String.mk pr.2)).replace "\"" "").replace (String.singleton sq) ""
      if flip then
        text ++ ", " ++ (ucapWords.getD (pick % 4) "ucap") ++ " " ++ name ++ "."
      else
        name ++ " berkata, " ++ text ++ "."
  | none => d

/-- Text contributed by one dialogue entry: strings are reformatted, dicts
contribute their `"text"` value (default `str(d)`), anything else nothing. -/
def dlgEntryParts (flip : Nat → Bool) (pick : Nat → Nat) (idx : Nat) : JVal → List JVal
  | .str s => [.str (reformatDialogueItem (flip idx) (pick idx) s)]
  | .obj fs => [(objGet fs "text").getD (.str (pyStr (.obj fs)))]
  | _ => []

/-- Text contributed by the panel's whole `dialogue` value
(`video_generator.py:319-343`): a list is processed per entry, a non-empty
string is appended as is, and any other value contributes nothing. -/
def dialogueParts (flip : Nat → Bool) (pick : Nat → Nat) : JVal → List JVal
  | .arr ds => (ds.enum.map (fun pr => dlgEntryParts flip pick pr.1 pr.2)).flatten
  | .str s => if s ≠ "" then [.str s] else []
  | _ => []

/-- The `text_parts` list for panel `i` (`video_generator.py:306-343`): the
panel's narration (when non-empty) followed by the dialogue-derived parts;
the cover panel (`i = 0`) has its dialogue discarded first. -/
def buildTextParts (i : Nat) (narration : String) (dialogueRaw : JVal)
    (flip : Nat → Bool) (pick : Nat → Nat) : List JVal :=
  let dialogue := if i = 0 then JVal.arr [] else dialogueRaw
  (if narration ≠ "" then [JVal.str narration] else []) ++ dialogueParts flip pick dialogue

/-- `' <break time="600ms"/> '.join([p for p in text_parts if p])`: truthy
parts joined with the SSML break; a truthy non-string raises `TypeError`. -/
def pyJoinBreak (parts : List JVal) : Except String String :=
  let kept := parts.filter pyTruthy
  if kept.all (fun v => match v with | .str _ => true | _ => false) then
    .ok (String.intercalate " <break time=\"600ms\"/> "
      (kept.map (fun v => match v with | .str s => s | _ => "")))
  else
    .error "TypeError: sequence item is not a string"

/-- The panel's on-screen duration (`video_generator.py:304-364`): default
`PANEL_DURATION`; with narration enabled and a non-empty TTS text, a truthy
measured audio duration `a` yields
`max(MIN_PANEL_DURATION, a + TRANSITION_DURATION + 0.3)` with no upper cap;
`None` or `0.0` from TTS keeps the default. -/
def panel_duration (withNarration : Bool) (i : Nat) (narration : String)
    (dialogueRaw : JVal) (flip : Nat → Bool) (pick : Nat → Nat)
    (tts : String → Option ℚ) : Except String ℚ :=
  if withNarration then
    match pyJoinBreak (buildTextParts i narration dialogueRaw flip pick) with
    | .error e => .error e
    | .ok full_text =>
        if full_text ≠ "" then
          match tts full_text with
          | some a =>
              .ok (if a ≠ 0 then
                max MIN_PANEL_DURATION (a + TRANSITION_DURATION + 3 / 10)
              else PANEL_DURATION)
          | none => .ok PANEL_DURATION
        else .ok PANEL_DURATION
  else .ok PANEL_DURATION

/-- C8 counterexample: TTS "succeeds" with measured duration 0 (a truthiness
edge of `if audio_duration:`), and the code keeps the default 4.0 instead of
the claimed `max(3.0, 0 + 0.5 + 0.3) = 3.0`. -/
theorem C8_counterexample :
    panel_duration true 1 "Halo" (.arr []) (fun _ => false) (fun _ => 0)
      (fun _ => some 0) = .ok PANEL_DURATION ∧
    max MIN_PANEL_DURATION ((0 : ℚ) + TRANSITION_DURATION + 3 / 10) = 3 ∧
    PANEL_DURATION ≠ (3 : ℚ) := by
  refine ⟨rfl, ?_, ?_⟩
  · rw [MIN_PANEL_DURATION, TRANSITION_DURATION]
    norm_num
  · rw [PANEL_DURATION]
    norm_num

/-- C8 (amended): with narration enabled, a panel whose TTS synthesis
succeeds with a NONZERO measured duration `a` gets on-screen duration
exactly `max(3.0, a + 0.5 + 0.3)`, and `MAX_PANEL_DURATION` never caps it
(when the formula exceeds 8.0 the duration still does); a panel with empty
TTS text, failed TTS, or measured duration 0 gets the default 4.0. -/
theorem C8_panel_duration_formula (i : Nat) (narration : String) (dialogueRaw : JVal)
    (flip : Nat → Bool) (pick : Nat → Nat) (tts : String → Option ℚ) (ft : String)
    (hft : pyJoinBreak (buildTextParts i narration dialogueRaw flip pick) = .ok ft) :
    (∀ a : ℚ, ft ≠ "" → a ≠ 0 → tts ft = some a →
      panel_duration true i narration dialogueRaw flip pick tts =
        .ok (max MIN_PANEL_DURATION (a + TRANSITION_DURATION + 3 / 10)) ∧
      (MAX_PANEL_DURATION < a + TRANSITION_DURATION + 3 / 10 →
        MAX_PANEL_DURATION < max MIN_PANEL_DURATION (a + TRANSITION_DURATION + 3 / 10))) ∧
    ((ft = "" ∨ tts ft = none ∨ tts ft = some 0) →
      panel_duration true i narration dialogueRaw flip pick tts = .ok PANEL_DURATION) := by
  constructor
  · intro a hne ha htts
    constructor
    · simp only [panel_duration, hft, if_pos hne, htts, if_pos ha]
      simp
    · intro hbig
      exact lt_max_of_lt_right hbig
  · rintro (hft0 | hnone | h0)
    · simp only [panel_duration, hft, hft0]
      simp
    · by_cases hfte : ft = ""
      · simp only [panel_duration, hft, hfte]
        simp
      · simp only [panel_duration, hft, if_pos hfte, hnone]
        simp
    · by_cases hfte : ft = ""
      · simp only [panel_duration, hft, hfte]
        simp
      · simp only [panel_duration, hft, if_pos hfte, h0]
        simp

/-- Witness for C8: measured duration 10 yields 10.8 seconds, beyond the
(unused) 8-second cap. -/
theorem C8_panel_duration_formula_witness :
    panel_duration true 1 "Halo" (.arr []) (fun _ => false) (fun _ => 0)
      (fun _ => some 10) =
      .ok (max MIN_PANEL_DURATION ((10 : ℚ) + TRANSITION_DURATION + 3 / 10)) ∧
    MAX_PANEL_DURATION <
      max MIN_PANEL_DURATION ((10 : ℚ) + TRANSITION_DURATION + 3 / 10) := by
  have h := (C8_panel_duration_formula 1 "Halo" (.arr []) (fun _ => false) (fun _ => 0)
    (fun _ => some 10) "Halo" rfl).1 10 (by decide) (by norm_num) rfl
  refine ⟨h.1, h.2 ?_⟩
  rw [MAX_PANEL_DURATION, TRANSITION_DURATION]
  norm_num

/-- C9: with narration enabled, the cover panel (index 0) always has its
dialogue discarded before TTS: for every value of the `dialogue` field the
synthesized text of panel 0 equals the narration alone; dialogue content is
included only for panels with index ≥ 1 (for such a panel a colon-free
dialogue line becomes the TTS text verbatim). -/
theorem C9_cover_discards_dialogue (narration : String) (dialogueRaw : JVal)
    (flip : Nat → Bool) (pick : Nat → Nat) :
    buildTextParts 0 narration dialogueRaw flip pick =
      buildTextParts 0 narration (.arr []) flip pick ∧
    pyJoinBreak (buildTextParts 0 narration dialogueRaw flip pick) = .ok narration ∧
    (∀ i : Nat, 1 ≤ i → ∀ s : String, s ≠ "" → breakAtColon s.toList = none →
      pyJoinBreak (buildTextParts i "" (.arr [.str s]) flip pick) = .ok s) := by
  refine ⟨rfl, ?_, ?_⟩
  · by_cases hn : narration = ""
    · subst hn
      rfl
    · have hb : buildTextParts 0 narration dialogueRaw flip pick = [JVal.str narration] := by
        simp [buildTextParts, dialogueParts, hn]
      rw [hb]
      simp only [pyJoinBreak, List.filter_cons, List.filter_nil]
      simp [pyTruthy, hn]
      rfl
  · intro i hi s hs hcolon
    have hi0 : i ≠ 0 := by omega
    have hb2 : buildTextParts i "" (.arr [.str s]) flip pick = [JVal.str s] := by
      simp [buildTextParts, hi0, dialogueParts, List.enum, List.enumFrom,
        dlgEntryParts, reformatDialogueItem, hcolon,
        show breakAtColon s.data = none from hcolon]
    rw [hb2]
    simp only [pyJoinBreak, List.filter_cons, List.filter_nil]
    simp [pyTruthy, hs]
    rfl

/-- Witness for C9: panel 0 ignores a dialogue line entirely; panel 1 speaks
it. -/
theorem C9_cover_discards_dialogue_witness :
    pyJoinBreak (buildTextParts 0 "Narasi" (.arr [.str "A: rahasia"])
      (fun _ => true) (fun _ => 0)) = .ok "Narasi" ∧
    pyJoinBreak (buildTextParts 1 "" (.arr [.str "halo semua"])
      (fun _ => true) (fun _ => 0)) = .ok "halo semua" := by
  have h := C9_cover_discards_dialogue "Narasi" (.arr [.str "A: rahasia"])
    (fun _ => true) (fun _ => 0)
  exact ⟨h.2.1, h.2.2 1 (by decide) "halo semua" (by decide) (by decide)⟩

/-!
## Read-along pages (`core.py:1062-1130`) — C7

`build_read_along_pages` validates the script, then walks the parts (sorted
by `part_no`) and their panels (sorted by `panel_no`), emitting one page per
panel with a running 1-based page counter.  The regex-based
`clean_tts_text` is abstracted as the `cleanTTS` parameter.  The field reads
`(x or "").strip()` raise `AttributeError` on truthy non-strings, so the
builder is an `Except`.
-/

/-- One read-along page (the dict built at `core.py:1118-1127`). -/
structure ReadPage where
  page_no : Nat
  part_no : Int
  panel_no : Int
  panel_title : String
  text : String
  tts_text : String

/-- `(x or "").strip()` on a dict lookup: falsy values become `""`; a truthy
non-string raises `AttributeError` (no `.strip`). -/
def pyStrStripE (v : Option JVal) : Except String String :=
  match pyOr v (.str "") with
  | .str s => .ok (pyStrip s)
  | _ => .error "AttributeError: no attribute strip"

/-- Sort key and field coercion `int(x.get("part_no") or 0)` (applied to dict
elements only; on validated scripts the coercion never raises, so the code's
unguarded `int(...)` is total here). -/
def partSortKey : JVal → Int
  | .obj fs => (pyToInt (pyOr (objGet fs "part_no") (.num 0))).getD 0
  | _ => 0

/-- Sort key and field coercion `int(x.get("panel_no") or 0)`. -/
def panelSortKey : JVal → Int
  | .obj fs => (pyToInt (pyOr (objGet fs "panel_no") (.num 0))).getD 0
  | _ => 0

/-- `dlg_lines` (`core.py:1088-1091`): the panel's dialogues as stripped
non-empty strings (a non-list value is wrapped as `[str(dialogues)]`). -/
def dlgLinesOf (fs : List (String × JVal)) : List String :=
  let dialoguesV := pyOr (objGet fs "dialogues") (.arr [])
  let dialogues : List JVal :=
    match dialoguesV with
    | .arr xs => xs
    | v => [.str (pyStr v)]
  (dialogues.map (fun d => pyStrip (pyStr d))).filter (fun s => s ≠ "")

/-- The legacy/debug page text (`core.py:1095-1106`). -/
def legacyTextOf (page_no : Nat) (title : String) (pno panel_no : Int)
    (panel_title narration dlg_join : String) : String :=
  let c0 := if page_no = 1 ∧ title ≠ "" then ["Judul komik: " ++ title ++ "."] else []
  let c1 := ["Halaman " ++ toString page_no ++ "."]
  let c2 := ["Bagian " ++ toString pno ++ ", panel " ++ toString panel_no ++ "."]
  let c3 := if panel_title ≠ "" then [panel_title ++ "."] else []
  let c4 := if narration ≠ "" then ["Narasi: " ++ narration] else []
  let c5 := if dlg_join ≠ "" then ["Dialog: " ++ dlg_join] else []
  pyStrip (String.intercalate " " (c0 ++ c1 ++ c2 ++ c3 ++ c4 ++ c5))

/-- The raw TTS text handed to `clean_tts_text` (`core.py:1109-1116`). -/
def ttsRawOf (page_no : Nat) (title narration : String) (dlg_lines : List String) :
    String :=
  let t0 := if page_no = 1 ∧ title ≠ "" then [title ++ "."] else []
  let t1 := if narration ≠ "" then [narration] else []
  let t2 := if !dlg_lines.isEmpty then [String.intercalate " " dlg_lines] else []
  pyStrip (String.intercalate " " (t0 ++ t1 ++ t2))

/-- One page from one panel dict (`core.py:1083-1127`). -/
def buildPanelPage (cleanTTS : String → String) (title : String) (pno : Int)
    (page_no : Nat) (pan : JVal) : Except String ReadPage :=
  match pan with
  | .obj fs =>
      match pyStrStripE (objGet fs "panel_title") with
      | .error e => .error e
      | .ok panel_title =>
          match pyStrStripE (objGet fs "narration") with
          | .error e => .error e
          | .ok narration =>
              let panel_no := panelSortKey (.obj fs)
              let dlg_lines := dlgLinesOf fs
              let dlg_join := String.intercalate " " dlg_lines
              .ok { page_no := page_no, part_no := pno, panel_no := panel_no,
                    panel_title := panel_title,
                    text := legacyTextOf page_no title pno panel_no panel_title
                      narration dlg_join,
                    tts_text := cleanTTS (ttsRawOf page_no title narration dlg_lines) }
  | _ => .error "unreachable: panels are filtered to dicts"

/-- The inner panel loop with the running page counter. -/
def buildPanelsLoop (cleanTTS : String → String) (title : String) (pno : Int) :
    Nat → List JVal → Except String (List ReadPage)
  | _, [] => .ok []
  | n, p :: ps =>
      match buildPanelPage cleanTTS title pno n p with
      | .error e => .error e
      | .ok pg =>
          match buildPanelsLoop cleanTTS title pno (n + 1) ps with
          | .error e => .error e
          | .ok rest => .ok (pg :: rest)

/-- One part's pages (`core.py:1078-1128`): panels filtered to dicts and
sorted by `panel_no`. -/
def buildPartPages (cleanTTS : String → String) (title : String) (startPage : Nat)
    (part : JVal) : Except String (List ReadPage) :=
  match part with
  | .obj fs =>
      let pno := partSortKey (.obj fs)
      let panelsV := pyOr (objGet fs "panels") (.arr [])
      let panels_sorted := sortByKey panelSortKey (onlyDicts (pyIter panelsV))
      buildPanelsLoop cleanTTS title pno startPage panels_sorted
  | _ => .error "unreachable: parts are filtered to dicts"

/-- The outer part loop, threading the page counter across parts. -/
def buildPartsLoop (cleanTTS : String → String) (title : String) :
    Nat → List JVal → Except String (List ReadPage)
  | _, [] => .ok []
  | n, part :: rest =>
      match buildPartPages cleanTTS title n part with
      | .error e => .error e
      | .ok pgs =>
          match buildPartsLoop cleanTTS title (n + pgs.length) rest with
          | .error e => .error e
          | .ok restPgs => .ok (pgs ++ restPgs)

/-- The `global` dict of the script (`script.get("global", \x7b\x7d) if
isinstance(..., dict) else \x7b\x7d`, `core.py:1071`). -/
def globalDictOf (fs : List (String × JVal)) : List (String × JVal) :=
  match objGet fs "global" with
  | some (.obj g) => g
  | _ => []

/-- Observer: the `parts` list of a script object. -/
def scriptParts : JVal → List JVal
  | .obj fs =>
      match objGet fs "parts" with
      | some (.arr parts) => parts
      | _ => []
  | _ => []

/-- Observer: the `panels` list of a part object. -/
def partPanels : JVal → List JVal
  | .obj fs =>
      match objGet fs "panels" with
      | some (.arr panels) => panels
      | _ => []
  | _ => []

/-- Embedding of `build_read_along_pages` (`core.py:1062-1130`): validate
(which normalizes dialogues in place — modelled by building over the
validator's result), read the global title, then emit pages part by part,
parts sorted by `part_no`. -/
def build_read_along_pages (cleanTTS : String → String) (script : JVal) :
    Except String (List ReadPage) :=
  match validate_script_shape script with
  | .error e => .error e
  | .ok s =>
      let gd : List (String × JVal) :=
        match s with
        | .obj fs => globalDictOf fs
        | _ => []
      match pyStrStripE (objGet gd "comic_title") with
      | .error e => .error e
      | .ok title =>
          let partsV : JVal :=
            match s with
            | .obj fs => pyOr (objGet fs "parts") (.arr [])
            | _ => .arr []
          let parts_sorted := sortByKey partSortKey (onlyDicts (pyIter partsV))
          buildPartsLoop cleanTTS title 1 parts_sorted

/-- A shape-valid panel whose `narration` is the number 7 (validation only
checks key presence, not types). -/
def badPanel : JVal :=
  .obj [("panel_no", .num 1), ("panel_title", .str "Judul Panel"),
        ("narration", .num 7), ("dialogues", .arr []),
        ("panel_context", .str "Konteks.")]

/-- A part whose first panel is `badPanel`, followed by panels 2..9. -/
def badPart : JVal :=
  .obj [("part_no", .num 1),
        ("panels", .arr (badPanel :: (List.range 8).map (fun i => mkPanel ((i : Int) + 2))))]

/-- A script passing shape validation whose panel 1 narration is a number. -/
def badScript : JVal :=
  .obj [("global", .obj [("comic_title", .str "Judul Komik")]),
        ("parts", .arr [badPart, mkPart 2])]

/-- C7 counterexample: `badScript` passes shape validation, but
`build_read_along_pages` raises (`AttributeError` on `(7).strip()`) instead
of returning 18 pages, because a panel's `narration` is a truthy
non-string.  So the claim fails for some validated scripts. -/
theorem C7_counterexample :
    (validate_script_shape badScript).isOk = true ∧
    (build_read_along_pages id badScript).isOk = false := by
  exact ⟨rfl, rfl⟩

/-! ## C7 support lemmas -/

/-- A lookup value on which `(x or "").strip()` cannot raise: whenever the
value is truthy it is a string. -/
def strWhenTruthy (v : Option JVal) : Prop :=
  ∀ x, v = some x → pyTruthy x = true → ∃ t, x = .str t

theorem pyStrStripE_ok_of (v : Option JVal) (h : strWhenTruthy v) :
    ∃ t, pyStrStripE v = .ok t := by
  unfold pyStrStripE pyOr
  match v with
  | none => exact ⟨pyStrip "", rfl⟩
  | some x =>
      cases htr : pyTruthy x with
      | false => simp [htr]
      | true =>
          obtain ⟨t, rfl⟩ := h x rfl htr
          simp [htr]

theorem pyToInt_truthy (x : JVal) (k : Int) (hx : pyToInt x = some k) (hk : k ≠ 0) :
    pyTruthy x = true := by
  cases x with
  | num n =>
      simp [pyToInt] at hx
      subst hx
      simpa [pyTruthy] using hk
  | bool b =>
      cases b with
      | false => simp [pyToInt] at hx; omega
      | true => simp [pyTruthy]
  | str s =>
      by_cases hs : s = ""
      · subst hs
        rw [show pyToInt (JVal.str "") = none from by decide] at hx
        exact absurd hx (by simp)
      · simpa [pyTruthy] using hs
  | null => simp [pyToInt] at hx
  | arr xs => simp [pyToInt] at hx
  | obj fs => simp [pyToInt] at hx

theorem panelSortKey_of_nums (pp : List (String × JVal)) (k : Int)
    (h : ((objGet pp "panel_no").bind pyToInt).getD (-999) = k)
    (hk1 : 1 ≤ k) (hk9 : k ≤ 9) :
    panelSortKey (.obj pp) = k := by
  cases hget : objGet pp "panel_no" with
  | none => rw [hget] at h; simp at h; omega
  | some x =>
      rw [hget] at h
      simp only [Option.some_bind] at h
      cases hint : pyToInt x with
      | none => rw [hint] at h; simp at h; omega
      | some k2 =>
          rw [hint] at h
          simp at h
          subst h
          have htr : pyTruthy x = true := pyToInt_truthy x k2 hint (by omega)
          simp [panelSortKey, hget, pyOr, htr, hint]

theorem forall2_mem_right {R : α → β → Prop} {l : List α} {l2 : List β}
    (h : List.Forall₂ R l l2) : ∀ b ∈ l2, ∃ a, a ∈ l ∧ R a b := by
  induction h with
  | nil => intro b hb; simp at hb
  | cons hr _ ih =>
      intro b hb
      rcases List.mem_cons.mp hb with rfl | hb
      · exact ⟨_, by simp, hr⟩
      · obtain ⟨a, ha, hab⟩ := ih b hb
        exact ⟨a, by simp [ha], hab⟩

theorem map_eq_of_forall2 {R : α → β → Prop} {l : List α} {l2 : List β}
    (h : List.Forall₂ R l l2) (f : α → γ) (g : β → γ)
    (hfg : ∀ a b, R a b → f a = g b) : l.map f = l2.map g := by
  induction h with
  | nil => rfl
  | cons hr _ ih => simp [hfg _ _ hr, ih]

theorem onlyDicts_eq_self (l : List JVal) (h : ∀ p ∈ l, ∃ fs, p = .obj fs) :
    onlyDicts l = l := by
  refine List.filter_eq_self.mpr ?_
  intro p hp
  obtain ⟨fs, rfl⟩ := h p hp
  rfl

theorem panelNums_eq_map (panels : List JVal)
    (h : ∀ p ∈ panels, ∃ fs, p = .obj fs) :
    panelNums panels = panels.map
      (fun p => match p with
        | .obj fs => ((objGet fs "panel_no").bind pyToInt).getD (-999)
        | _ => -999) := by
  induction panels with
  | nil => rfl
  | cons p ps ih =>
      obtain ⟨fs, rfl⟩ := h p (by simp)
      simp only [panelNums, List.foldr, List.map_cons]
      rw [← panelNums]
      rw [ih (fun q hq => h q (by simp [hq]))]

theorem sortByKey_pair (key : α → Int) (x y : α) :
    sortByKey key [x, y] = if key x ≤ key y then [x, y] else [y, x] := by
  simp [sortByKey, insertLe]

theorem map_key_sortByKey_eq (key : JVal → Int) (l : List JVal)
    (hperm : List.Perm (l.map key) oneToNine) :
    (sortByKey key l).map key = oneToNine := by
  have hp1 : List.Perm ((sortByKey key l).map key) (l.map key) :=
    (sortByKey_perm key l).map key
  have hp2 : List.Perm ((sortByKey key l).map key) oneToNine := hp1.trans hperm
  have hs1 : List.Sorted (· ≤ ·) ((sortByKey key l).map key) := by
    have := sortByKey_pairwise key l
    exact List.Pairwise.map key (fun a b hab => hab) this
  have hs2 : List.Sorted (· ≤ ·) oneToNine := by decide
  exact List.eq_of_perm_of_sorted hp2 hs1 hs2

theorem range'_two_blocks :
    List.range' 1 9 ++ List.range' 10 9 = List.range' 1 18 := by
  have := List.range'_append 1 9 9 1
  simpa using this

theorem map_eq_of_forall2_mem {R : α → β → Prop} {l : List α} {l2 : List β}
    (h : List.Forall₂ R l l2) (f : α → γ) (g : β → γ)
    (hfg : ∀ a b, a ∈ l → R a b → f a = g b) : l.map f = l2.map g := by
  induction h with
  | nil => rfl
  | cons hr htail ih =>
      simp only [List.map_cons]
      rw [hfg _ _ (by simp) hr]
      rw [ih (fun a b ha hab => hfg a b (by simp [ha]) hab)]

theorem buildPanelsLoop_ok (cleanTTS : String → String) (title : String) (pno : Int)
    (n : Nat) (l : List JVal)
    (h : ∀ p ∈ l, ∃ pp, p = .obj pp ∧
      strWhenTruthy (objGet pp "panel_title") ∧ strWhenTruthy (objGet pp "narration")) :
    ∃ pgs, buildPanelsLoop cleanTTS title pno n l = .ok pgs ∧
      pgs.length = l.length ∧
      pgs.map (fun pg => pg.page_no) = List.range' n l.length ∧
      pgs.map (fun pg => pg.panel_no) = l.map panelSortKey ∧
      pgs.map (fun pg => pg.part_no) = List.replicate l.length pno ∧
      ∀ pg ∈ pgs, ∃ panFs, (JVal.obj panFs) ∈ l ∧
        pg.part_no = pno ∧
        pg.panel_no = panelSortKey (.obj panFs) ∧
        pyStrStripE (objGet panFs "panel_title") = .ok pg.panel_title ∧
        ∃ narr, pyStrStripE (objGet panFs "narration") = .ok narr ∧
          pg.tts_text = cleanTTS (ttsRawOf pg.page_no title narr (dlgLinesOf panFs)) := by
  induction l generalizing n with
  | nil => exact ⟨[], rfl, rfl, rfl, rfl, rfl, by simp⟩
  | cons p ps ih =>
      obtain ⟨pp, rfl, ht, hnr⟩ := h p (by simp)
      obtain ⟨t1, ht1⟩ := pyStrStripE_ok_of _ ht
      obtain ⟨t2, ht2⟩ := pyStrStripE_ok_of _ hnr
      obtain ⟨pgs, hpgs, hlen, hpage, hpanel, hpart, hcorr⟩ :=
        ih (n + 1) (fun q hq => h q (by simp [hq]))
      refine ⟨{ page_no := n, part_no := pno, panel_no := panelSortKey (.obj pp),
                panel_title := t1,
                text := legacyTextOf n title pno (panelSortKey (.obj pp)) t1 t2
                  (String.intercalate " " (dlgLinesOf pp)),
                tts_text := cleanTTS (ttsRawOf n title t2 (dlgLinesOf pp)) } :: pgs,
              ?_, ?_, ?_, ?_, ?_, ?_⟩
      · simp only [buildPanelsLoop, buildPanelPage, ht1, ht2, hpgs]
      · simp [hlen]
      · simp only [List.map_cons, List.length_cons, List.range'_succ]
        rw [hpage]
      · simp only [List.map_cons, hpanel]
      · simp only [List.map_cons, hpart, List.length_cons, List.replicate_succ]
      · intro pg hpg
        rcases List.mem_cons.mp hpg with rfl | hpg
        · exact ⟨pp, by simp, rfl, rfl, ht1, t2, ht2, rfl⟩
        · obtain ⟨panFs, hmem, h1, h2, h3, narr, h4, h5⟩ := hcorr pg hpg
          exact ⟨panFs, by simp [hmem], h1, h2, h3, narr, h4, h5⟩

/-- All panels of a part carry string (or falsy) `panel_title` and `narration`,
so the read-along builder's `.strip()` calls cannot raise on them. -/
def partPanelsWellTyped (a : JVal) : Prop :=
  ∀ pfs, a = .obj pfs →
    ∀ panels, objGet pfs "panels" = some (.arr panels) →
      ∀ p ∈ panels, ∀ pp, p = .obj pp →
        strWhenTruthy (objGet pp "panel_title") ∧ strWhenTruthy (objGet pp "narration")

/-- The script fields read by `build_read_along_pages` are strings whenever
truthy: the global `comic_title` and every panel's `panel_title` and
`narration`. -/
def wellTypedForRead (s : JVal) : Prop :=
  ∀ fs, s = .obj fs →
    (∀ g, objGet fs "global" = some (.obj g) → strWhenTruthy (objGet g "comic_title")) ∧
    ∀ parts, objGet fs "parts" = some (.arr parts) →
      ∀ part ∈ parts, partPanelsWellTyped part

theorem forall2_mem_left {R : α → β → Prop} {l : List α} {l2 : List β}
    (h : List.Forall₂ R l l2) : ∀ a ∈ l, ∃ b, b ∈ l2 ∧ R a b := by
  induction h with
  | nil => intro a ha; simp at ha
  | cons hr _ ih =>
      intro a ha
      rcases List.mem_cons.mp ha with rfl | ha
      · exact ⟨_, by simp, hr⟩
      · obtain ⟨b, hb, hab⟩ := ih a ha
        exact ⟨b, by simp [hb], hab⟩

theorem buildPartPages_ok (cleanTTS : String → String) (title : String)
    (startPage : Nat) (a q : JVal)
    (hq : checkPart a = .ok q) (hwa : partPanelsWellTyped a) :
    ∃ pgs, buildPartPages cleanTTS title startPage q = .ok pgs ∧
      (∃ qfs, q = .obj qfs) ∧
      (partSortKey q = 1 ∨ partSortKey q = 2) ∧
      pgs.length = 9 ∧
      pgs.map (fun pg => pg.page_no) = List.range' startPage 9 ∧
      pgs.map (fun pg => pg.panel_no) = oneToNine ∧
      pgs.map (fun pg => pg.part_no) = List.replicate 9 (partSortKey q) ∧
      ∀ pg ∈ pgs, ∃ panFs, (JVal.obj panFs) ∈ partPanels q ∧
        pg.part_no = partSortKey q ∧
        pg.panel_no = panelSortKey (.obj panFs) ∧
        pyStrStripE (objGet panFs "panel_title") = .ok pg.panel_title ∧
        ∃ narr, pyStrStripE (objGet panFs "narration") = .ok narr ∧
          pg.tts_text = cleanTTS (ttsRawOf pg.page_no title narr (dlgLinesOf panFs)) := by
  obtain ⟨pfs, panels, panels2, rfl, hpno, hpanels, hlen, hperm, hfa, rfl⟩ :=
    checkPart_ok_inv a q hq
  have h2len : panels2.length = 9 := by rw [← hfa.length_eq]; exact hlen
  have hallobj : ∀ p ∈ panels, ∃ fs0, p = .obj fs0 := by
    intro p hp
    obtain ⟨b, _, hchk⟩ := forall2_mem_left hfa p hp
    obtain ⟨fs0, rfl, _, _⟩ := checkPanel_ok_inv p b hchk
    exact ⟨fs0, rfl⟩
  have hnums : panelNums panels = panels.map
      (fun p => match p with
        | .obj fs0 => ((objGet fs0 "panel_no").bind pyToInt).getD (-999)
        | _ => -999) := panelNums_eq_map panels hallobj
  have hbound : ∀ p ∈ panels, ∀ fs0, p = .obj fs0 →
      1 ≤ ((objGet fs0 "panel_no").bind pyToInt).getD (-999) ∧
      ((objGet fs0 "panel_no").bind pyToInt).getD (-999) ≤ 9 := by
    intro p hp fs0 hpe
    have hmem : ((objGet fs0 "panel_no").bind pyToInt).getD (-999) ∈ panelNums panels := by
      rw [hnums]
      subst hpe
      simpa using List.mem_map_of_mem
        (fun p => match p with
          | JVal.obj fs0 => ((objGet fs0 "panel_no").bind pyToInt).getD (-999)
          | _ => (-999 : Int)) hp
    have h19 := hperm.mem_iff.mp hmem
    simp [oneToNine] at h19
    omega
  have hpair : ∀ p ∈ panels, ∀ b, checkPanel p = .ok b →
      ∃ p0fs bp, p = .obj p0fs ∧ b = .obj bp ∧
        objGet bp "panel_no" = objGet p0fs "panel_no" ∧
        objGet bp "panel_title" = objGet p0fs "panel_title" ∧
        objGet bp "narration" = objGet p0fs "narration" ∧
        panelSortKey b = ((objGet p0fs "panel_no").bind pyToInt).getD (-999) := by
    intro p hp b hchk
    obtain ⟨p0fs, rfl, _, rfl⟩ := checkPanel_ok_inv p b hchk
    refine ⟨p0fs, _, rfl, rfl, ?_, ?_, ?_, ?_⟩
    · exact objGet_objSet_ne p0fs "dialogues" "panel_no" _ (by decide)
    · exact objGet_objSet_ne p0fs "dialogues" "panel_title" _ (by decide)
    · exact objGet_objSet_ne p0fs "dialogues" "narration" _ (by decide)
    · obtain ⟨h1, h9⟩ := hbound _ hp p0fs rfl
      refine panelSortKey_of_nums _ _ ?_ h1 h9
      rw [objGet_objSet_ne p0fs "dialogues" "panel_no" _ (by decide)]
  have hmapkeys : panels2.map panelSortKey = panelNums panels := by
    rw [hnums]
    refine (map_eq_of_forall2_mem hfa _ panelSortKey ?_).symm
    intro p b hp hchk
    obtain ⟨p0fs, bp, hpe, rfl, _, _, _, hkey⟩ := hpair p hp b hchk
    rw [hkey, hpe]
  have hpermkeys : List.Perm (panels2.map panelSortKey) oneToNine := by
    rw [hmapkeys]; exact hperm
  have hobj2 : ∀ b ∈ panels2, ∃ bp, b = .obj bp ∧
      strWhenTruthy (objGet bp "panel_title") ∧ strWhenTruthy (objGet bp "narration") := by
    intro b hb
    obtain ⟨p, hp, hchk⟩ := forall2_mem_right hfa b hb
    obtain ⟨p0fs, bp, hpe, rfl, _, htit, hnar, _⟩ := hpair p hp b hchk
    obtain ⟨ht, hn⟩ := hwa pfs rfl panels hpanels p hp p0fs hpe
    rw [← htit] at ht
    rw [← hnar] at hn
    exact ⟨bp, rfl, ht, hn⟩
  have hne2 : panels2 ≠ [] := by intro h0; rw [h0] at h2len; simp at h2len
  have htr2 : pyTruthy (.arr panels2) = true := by
    cases panels2 with
    | nil => exact absurd rfl hne2
    | cons x xs => simp [pyTruthy]
  have honly : onlyDicts panels2 = panels2 :=
    onlyDicts_eq_self panels2 (fun p hp => by
      obtain ⟨bp, hbe, _, _⟩ := hobj2 p hp; exact ⟨bp, hbe⟩)
  have hsortmem : ∀ p ∈ sortByKey panelSortKey panels2, p ∈ panels2 :=
    fun p hp => (sortByKey_perm panelSortKey panels2).mem_iff.mp hp
  have hsortlen : (sortByKey panelSortKey panels2).length = 9 := by
    rw [(sortByKey_perm panelSortKey panels2).length_eq]; exact h2len
  obtain ⟨pgs, hpgs, hlenp, hpage, hpanel, hpart, hcorr⟩ :=
    buildPanelsLoop_ok cleanTTS title
      (partSortKey (.obj (objSet pfs "panels" (.arr panels2)))) startPage
      (sortByKey panelSortKey panels2)
      (fun p hp => by
        obtain ⟨bp, hbe, ht, hn⟩ := hobj2 p (hsortmem p hp)
        exact ⟨bp, hbe, ht, hn⟩)
  have hkeysorted : (sortByKey panelSortKey panels2).map panelSortKey = oneToNine :=
    map_key_sortByKey_eq panelSortKey panels2 hpermkeys
  have hkeypart : partSortKey (.obj (objSet pfs "panels" (.arr panels2))) = partNoOf pfs := by
    simp only [partSortKey, partNoOf]
    rw [objGet_objSet_ne pfs "panels" "part_no" _ (by decide)]
  have hpp : partPanels (.obj (objSet pfs "panels" (.arr panels2))) = panels2 := by
    simp only [partPanels]
    rw [objGet_objSet_self]
  refine ⟨pgs, ?_, ⟨_, rfl⟩, ?_, ?_, ?_, ?_, ?_, ?_⟩
  · simp only [buildPartPages]
    rw [objGet_objSet_self]
    simp only [pyOr, htr2, if_true, pyIter, honly]
    exact hpgs
  · rw [hkeypart]; exact hpno
  · rw [hlenp, hsortlen]
  · rw [hpage, hsortlen]
  · rw [hpanel, hkeysorted]
  · rw [hpart, hsortlen]
  · intro pg hpg
    obtain ⟨panFs, hmem, h1, h2, h3, narr, h4, h5⟩ := hcorr pg hpg
    exact ⟨panFs, by rw [hpp]; exact hsortmem _ hmem, h1, h2, h3, narr, h4, h5⟩

theorem buildTwoParts (cleanTTS : String → String) (titleS : String)
    (aa ab qa qb : JVal)
    (hca : checkPart aa = .ok qa) (hcb : checkPart ab = .ok qb)
    (hwa : partPanelsWellTyped aa) (hwb : partPanelsWellTyped ab) :
    ∃ pages, buildPartsLoop cleanTTS titleS 1 [qa, qb] = .ok pages ∧
      pages.length = 18 ∧
      pages.map (fun pg => pg.page_no) = List.range' 1 18 ∧
      pages.map (fun pg => pg.panel_no) = oneToNine ++ oneToNine ∧
      pages.map (fun pg => pg.part_no) =
        List.replicate 9 (partSortKey qa) ++ List.replicate 9 (partSortKey qb) ∧
      ∀ pg ∈ pages, ∃ part, (part = qa ∨ part = qb) ∧ ∃ panFs,
        (JVal.obj panFs) ∈ partPanels part ∧
        pg.part_no = partSortKey part ∧
        pg.panel_no = panelSortKey (.obj panFs) ∧
        pyStrStripE (objGet panFs "panel_title") = .ok pg.panel_title ∧
        ∃ narr, pyStrStripE (objGet panFs "narration") = .ok narr ∧
          pg.tts_text = cleanTTS (ttsRawOf pg.page_no titleS narr (dlgLinesOf panFs)) := by
  obtain ⟨pgsA, hA, _, _, hlenA, hpageA, hpanelA, hpartA, hcorrA⟩ :=
    buildPartPages_ok cleanTTS titleS 1 aa qa hca hwa
  obtain ⟨pgsB, hB, _, _, hlenB, hpageB, hpanelB, hpartB, hcorrB⟩ :=
    buildPartPages_ok cleanTTS titleS 10 ab qb hcb hwb
  have hloop : buildPartsLoop cleanTTS titleS 1 [qa, qb] = .ok (pgsA ++ (pgsB ++ [])) := by
    simp only [buildPartsLoop]
    rw [hA]
    dsimp only
    rw [show 1 + pgsA.length = 10 by rw [hlenA]]
    rw [hB]
  refine ⟨pgsA ++ pgsB, ?_, ?_, ?_, ?_, ?_, ?_⟩
  · rw [hloop]; simp
  · simp [hlenA, hlenB]
  · rw [List.map_append, hpageA, hpageB, range'_two_blocks]
  · rw [List.map_append, hpanelA, hpanelB]
  · rw [List.map_append, hpartA, hpartB]
  · intro pg hpg
    rcases List.mem_append.mp hpg with hpg | hpg
    · obtain ⟨panFs, hmem, h1, h2, h3, narr, h4, h5⟩ := hcorrA pg hpg
      exact ⟨qa, Or.inl rfl, panFs, hmem, h1, h2, h3, narr, h4, h5⟩
    · obtain ⟨panFs, hmem, h1, h2, h3, narr, h4, h5⟩ := hcorrB pg hpg
      exact ⟨qb, Or.inr rfl, panFs, hmem, h1, h2, h3, narr, h4, h5⟩

/-- C7 (amended): for every script accepted by shape validation whose read
fields (the global `comic_title` and each panel's `panel_title` and
`narration`) are strings whenever truthy, `build_read_along_pages` succeeds
and returns exactly 18 pages whose `page_no` values are exactly 1..18 in
increasing order, whose `panel_no` values run 1..9 within each of the two
part blocks, whose `part_no` is constant on each 9-page block and ascending
across the blocks, and each page carries its panel's `part_no`, `panel_no`,
stripped `panel_title`, and the TTS text derived from that panel's stripped
narration and dialogue lines. -/
theorem C7_read_along_pages (cleanTTS : String → String) (s s2 : JVal)
    (hval : validate_script_shape s = .ok s2)
    (hwt : wellTypedForRead s) :
    ∃ pages titleS,
      build_read_along_pages cleanTTS s = .ok pages ∧
      pages.length = 18 ∧
      pages.map (fun pg => pg.page_no) = List.range' 1 18 ∧
      pages.map (fun pg => pg.panel_no) = oneToNine ++ oneToNine ∧
      (∃ a b : Int, a ≤ b ∧
        pages.map (fun pg => pg.part_no) =
          List.replicate 9 a ++ List.replicate 9 b) ∧
      ∀ pg ∈ pages, ∃ part, part ∈ scriptParts s2 ∧ ∃ panFs,
        (JVal.obj panFs) ∈ partPanels part ∧
        pg.part_no = partSortKey part ∧
        pg.panel_no = panelSortKey (.obj panFs) ∧
        pyStrStripE (objGet panFs "panel_title") = .ok pg.panel_title ∧
        ∃ narr, pyStrStripE (objGet panFs "narration") = .ok narr ∧
          pg.tts_text = cleanTTS (ttsRawOf pg.page_no titleS narr (dlgLinesOf panFs)) := by
  obtain ⟨fs, parts, parts2, rfl, hparts, hlen, hfa, rfl⟩ := validate_ok_inv s s2 hval
  have h2len : parts2.length = 2 := by rw [← hfa.length_eq]; exact hlen
  rcases parts2 with _ | ⟨q1, _ | ⟨q2, _ | ⟨q3, rest⟩⟩⟩
  · simp at h2len
  · simp at h2len
  case intro.intro.intro.intro.intro.intro.intro.cons.cons.cons =>
    simp at h2len
  rw [List.forall₂_cons_right_iff] at hfa
  obtain ⟨a1, l1, hchk1, hfa2, rfl⟩ := hfa
  rw [List.forall₂_cons_right_iff] at hfa2
  obtain ⟨a2, l2, hchk2, hfa3, rfl⟩ := hfa2
  rw [List.forall₂_nil_right_iff] at hfa3
  subst hfa3
  have hwparts := (hwt fs rfl).2 _ hparts
  have hw1 : partPanelsWellTyped a1 := hwparts a1 (by simp)
  have hw2 : partPanelsWellTyped a2 := hwparts a2 (by simp)
  have hglobal := (hwt fs rfl).1
  have hq1o : ∃ qfs, q1 = .obj qfs := by
    obtain ⟨pfs, panels, panels2, _, _, _, _, _, _, hqe⟩ := checkPart_ok_inv _ _ hchk1
    exact ⟨_, hqe⟩
  obtain ⟨qfs1, rfl⟩ := hq1o
  have hq2o : ∃ qfs, q2 = .obj qfs := by
    obtain ⟨pfs, panels, panels2, _, _, _, _, _, _, hqe⟩ := checkPart_ok_inv _ _ hchk2
    exact ⟨_, hqe⟩
  obtain ⟨qfs2, rfl⟩ := hq2o
  have hstr : strWhenTruthy (objGet (globalDictOf fs) "comic_title") := by
    unfold globalDictOf
    cases hg : objGet fs "global" with
    | none => intro x hx htr; simp [objGet, List.lookup] at hx
    | some x =>
        cases x with
        | obj g => exact hglobal g hg
        | null => intro x hx htr; simp [objGet, List.lookup] at hx
        | bool b => intro x hx htr; simp [objGet, List.lookup] at hx
        | num n => intro x hx htr; simp [objGet, List.lookup] at hx
        | str t => intro x hx htr; simp [objGet, List.lookup] at hx
        | arr xs => intro x hx htr; simp [objGet, List.lookup] at hx
  obtain ⟨titleS, hts⟩ := pyStrStripE_ok_of _ hstr
  have hgd : globalDictOf (objSet fs "parts" (.arr [JVal.obj qfs1, JVal.obj qfs2])) =
      globalDictOf fs := by
    unfold globalDictOf
    rw [objGet_objSet_ne fs "parts" "global" _ (by decide)]
  have hsp : scriptParts (.obj (objSet fs "parts" (.arr [JVal.obj qfs1, JVal.obj qfs2]))) =
      [JVal.obj qfs1, JVal.obj qfs2] := by
    simp only [scriptParts]
    rw [objGet_objSet_self]
  have htrp : pyTruthy (.arr [JVal.obj qfs1, JVal.obj qfs2]) = true := by
    simp [pyTruthy]
  have heval : ∀ pages0, buildPartsLoop cleanTTS titleS 1
      (sortByKey partSortKey [JVal.obj qfs1, JVal.obj qfs2]) = .ok pages0 →
      build_read_along_pages cleanTTS (.obj fs) = .ok pages0 := by
    intro pages0 hp0
    simp only [build_read_along_pages, hval]
    rw [hgd, hts]
    dsimp only
    rw [objGet_objSet_self]
    simp only [pyOr, htrp, if_true, pyIter]
    rw [show onlyDicts [JVal.obj qfs1, JVal.obj qfs2] = [JVal.obj qfs1, JVal.obj qfs2]
      from rfl]
    exact hp0
  by_cases hord : partSortKey (JVal.obj qfs1) ≤ partSortKey (JVal.obj qfs2)
  · obtain ⟨pages, hloop, hplen, hppage, hppanel, hppart, hpcorr⟩ :=
      buildTwoParts cleanTTS titleS a1 a2 (JVal.obj qfs1) (JVal.obj qfs2) hchk1 hchk2 hw1 hw2
    refine ⟨pages, titleS, ?_, hplen, hppage, hppanel,
      ⟨partSortKey (JVal.obj qfs1), partSortKey (JVal.obj qfs2), hord, hppart⟩, ?_⟩
    · apply heval
      rw [sortByKey_pair, if_pos hord]
      exact hloop
    · intro pg hpg
      obtain ⟨part, hpq, hrest⟩ := hpcorr pg hpg
      refine ⟨part, ?_, hrest⟩
      rw [hsp]
      rcases hpq with rfl | rfl <;> simp
  · have hord2 : partSortKey (JVal.obj qfs2) ≤ partSortKey (JVal.obj qfs1) :=
      le_of_not_le hord
    obtain ⟨pages, hloop, hplen, hppage, hppanel, hppart, hpcorr⟩ :=
      buildTwoParts cleanTTS titleS a2 a1 (JVal.obj qfs2) (JVal.obj qfs1) hchk2 hchk1 hw2 hw1
    refine ⟨pages, titleS, ?_, hplen, hppage, hppanel,
      ⟨partSortKey (JVal.obj qfs2), partSortKey (JVal.obj qfs1), hord2, hppart⟩, ?_⟩
    · apply heval
      rw [sortByKey_pair, if_neg hord]
      exact hloop
    · intro pg hpg
      obtain ⟨part, hpq, hrest⟩ := hpcorr pg hpg
      refine ⟨part, ?_, hrest⟩
      rw [hsp]
      rcases hpq with rfl | rfl <;> simp

theorem wellTyped_mkPart (c : Int) : partPanelsWellTyped (mkPart c) := by
  intro pfs hpe panels hpan p hp pp hpp
  simp only [mkPart] at hpe
  injection hpe with h
  subst h
  simp [objGet, List.lookup] at hpan
  rw [← hpan] at hp
  obtain ⟨i, hi, rfl⟩ := List.mem_map.mp hp
  simp only [mkPanel] at hpp
  injection hpp with h
  subst h
  constructor
  · intro x hx htr
    rw [show objGet [("panel_no", JVal.num ((i : Int) + 1)),
        ("panel_title", JVal.str "Judul Panel"),
        ("narration", JVal.str "Narasi singkat."),
        ("dialogues", JVal.arr [JVal.str "A: halo"]),
        ("panel_context", JVal.str "Konteks visual.")] "panel_title" =
      some (JVal.str "Judul Panel") from rfl] at hx
    injection hx with h
    exact ⟨_, h.symm⟩
  · intro x hx htr
    rw [show objGet [("panel_no", JVal.num ((i : Int) + 1)),
        ("panel_title", JVal.str "Judul Panel"),
        ("narration", JVal.str "Narasi singkat."),
        ("dialogues", JVal.arr [JVal.str "A: halo"]),
        ("panel_context", JVal.str "Konteks visual.")] "narration" =
      some (JVal.str "Narasi singkat.") from rfl] at hx
    injection hx with h
    exact ⟨_, h.symm⟩

theorem wellTyped_mkScript (a b : Int) : wellTypedForRead (mkScript a b) := by
  intro fs hfs
  simp only [mkScript] at hfs
  injection hfs with h
  subst h
  constructor
  · intro g hg
    rw [show objGet [("global", JVal.obj [("comic_title", JVal.str "Judul Komik"),
        ("tagline", JVal.str "Tagline singkat")]),
        ("parts", JVal.arr [mkPart a, mkPart b])] "global" =
      some (JVal.obj [("comic_title", JVal.str "Judul Komik"),
        ("tagline", JVal.str "Tagline singkat")]) from rfl] at hg
    injection hg with h
    injection h with h2
    subst h2
    intro x hx htr
    rw [show objGet [("comic_title", JVal.str "Judul Komik"),
        ("tagline", JVal.str "Tagline singkat")] "comic_title" =
      some (JVal.str "Judul Komik") from rfl] at hx
    injection hx with h
    exact ⟨_, h.symm⟩
  · intro parts hp part hpart
    rw [show objGet [("global", JVal.obj [("comic_title", JVal.str "Judul Komik"),
        ("tagline", JVal.str "Tagline singkat")]),
        ("parts", JVal.arr [mkPart a, mkPart b])] "parts" =
      some (JVal.arr [mkPart a, mkPart b]) from rfl] at hp
    injection hp with h
    injection h with h2
    rw [← h2] at hpart
    rcases List.mem_cons.mp hpart with rfl | hpart
    · exact wellTyped_mkPart a
    · rcases List.mem_cons.mp hpart with rfl | hpart
      · exact wellTyped_mkPart b
      · simp at hpart

/-- Witness for C7: the concrete two-part script `mkScript 1 2` passes
validation, is well-typed for the read-along builder, and the theorem yields
its 18 pages numbered 1..18 with the stated panel and part numbering. -/
theorem C7_read_along_pages_witness :
    ∃ s2, validate_script_shape (mkScript 1 2) = Except.ok s2 ∧
      ∃ pages,
        build_read_along_pages id (mkScript 1 2) = Except.ok pages ∧
        pages.length = 18 ∧
        pages.map (fun pg => pg.page_no) = List.range' 1 18 ∧
        pages.map (fun pg => pg.panel_no) = oneToNine ++ oneToNine ∧
        ∃ a b : Int, a ≤ b ∧
          pages.map (fun pg => pg.part_no) =
            List.replicate 9 a ++ List.replicate 9 b := by
  have hok : (validate_script_shape (mkScript 1 2)).isOk = true := rfl
  obtain ⟨s2, hs2⟩ := (exceptIsOk_iff _).mp hok
  obtain ⟨pages, titleS, h1, h2, h3, h4, h5, _⟩ :=
    C7_read_along_pages id (mkScript 1 2) s2 hs2 (wellTyped_mkScript 1 2)
  exact ⟨s2, hs2, pages, h1, h2, h3, h4, h5⟩

end MamaStoria
